import Mathlib

/-!
GAW_Speedometer: a shallow embedding of the measurement and calibration code

The Arduino sketch keeps its whole state in global variables (`globals.h`).
They are gathered here in one record, `State`, and every routine of the
sketch becomes a function on that record.

Modelling conventions:

* `float` values are exact rationals (`ℚ`); only the one division of the
  program whose divisor can be zero (`showSpeed`) is given the IEEE-754
  outcome (`FloatVal`).
* The target is an AVR board (pins `PD2`..`PD4`), where `int` has 16 bits and
  `long` 32.  `int` variables hold integers (`Int`); where the program assigns
  a `long` or a `float` to an `int`, the value is narrowed to 16 bits
  (`narrowInt`, `floatToInt`).  `unsigned long` values are naturals reduced
  modulo `2 ^ 32`.
* `Serial.print` / `Serial.println` calls only produce text and are left out;
  with `DEBUG` set to `0` in `globals.h` the `debug` macros expand to nothing.
* The hardware is an environment handed to the routine that reads it: the
  polls of `analogRead` and `millis`, the results of `Serial.read`,
  `Serial.parseInt` and `Serial.parseFloat`.
-/

namespace Speedometer

/-! ## globals.h -/

/-- Number of values of an `unsigned long` (32 bits). -/
def ULONG_MOD : Nat := 4294967296

/-- Unsigned 32-bit subtraction `a - b`, as computed on `unsigned long`. -/
def subU32 (a b : Nat) : Nat :=
  (a % ULONG_MOD + ULONG_MOD - b % ULONG_MOD) % ULONG_MOD

/-- Narrowing of an integer to the 16-bit two's-complement `int` of the
target, as happens when a `long` is assigned to an `int`: the low 16 bits are
kept. -/
def narrowInt (v : Int) : Int :=
  (v + 32768) % 65536 - 32768

/-- The value is representable in the 16-bit `int` of the target. -/
def inIntRange (v : Int) : Prop := -32768 ≤ v ∧ v ≤ 32767

instance (v : Int) : Decidable (inIntRange v) := by
  unfold inIntRange
  infer_instance

/-- The eight initialisers of `float scales[8]`. -/
def scalesTable : List ℚ := [45.2, 48.0, 64.0, 76.0, 87.0, 120.0, 160.0, 220.0]

/-- The expression `scales[i]`.  C++ does not check the index: inside the
table the entry is read, outside it whatever lies next to the table in
memory, given by `outside`. -/
def scales (outside : Int → ℚ) (i : Int) : ℚ :=
  if 0 ≤ i ∧ i ≤ 7 then scalesTable.getD i.toNat 0 else outside i

/-- The eight initialisers of `char scaleName[8][12]`. -/
def scaleNameTable : List String :=
  ["O(17)", "O, On3, On2", "Sn3, S", "OO", "HO", "TT", "N, Nn3", "Z"]

/-- The record `struct Settings` that is written to the EEPROM. -/
structure Settings where
  senseDistance : Int
  selectedScale : Int
  leftTreshold : Int
  rightTreshold : Int
  deriving DecidableEq, Repr

/-- A `float` result: a finite value or one of the IEEE-754 special values. -/
inductive FloatVal where
  | finite (q : ℚ)
  | posInf
  | negInf
  | nan
  deriving DecidableEq, Repr

/-- Text handed to `LCD_display`. -/
inductive LcdText where
  | label (t : String)
  | scaleLabel (index : Int)
  | number (v : FloatVal)
  deriving DecidableEq, Repr

/-- One call `LCD_display(display1, row, col, text)`. -/
structure LcdWrite where
  row : Nat
  col : Nat
  text : LcdText
  deriving DecidableEq, Repr

/-- The global variables of the sketch, the two indicator pins, the settings
record held by the EEPROM at offset 0, the number of `EEPROM.put` calls made
so far, and the writes sent to the display. -/
structure State where
  scalePtr : Int
  sensorDistance : ℚ
  scaleFactor : ℚ
  tresholdLeft : Int
  tresholdRight : Int
  realDistance : ℚ
  realSpeed : FloatVal
  detectionTime : Nat
  mySettings : Settings
  leftMillis : Nat
  rightMillis : Nat
  leftDetection : Bool
  rightDetection : Bool
  eeprom : Settings
  eepromWrites : Nat
  lcd : List LcdWrite
  deriving DecidableEq

/-- The globals as initialised in `globals.h`, over a given EEPROM content.
`mySettings` has static storage and starts zeroed. -/
def initialState (stored : Settings) : State :=
  { scalePtr := 6
    sensorDistance := 200
    scaleFactor := 160.0
    tresholdLeft := 200
    tresholdRight := 200
    realDistance := 0.0
    realSpeed := FloatVal.finite 0.0
    detectionTime := 0
    mySettings := ⟨0, 0, 0, 0⟩
    leftMillis := 0
    rightMillis := 0
    leftDetection := false
    rightDetection := false
    eeprom := stored
    eepromWrites := 0
    lcd := [] }

/-! ## _sensors.h -/

/-- One evaluation of the loop condition of a waiting loop: the value returned
by `analogRead`, and the value `millis()` has right after it. -/
structure Poll where
  reading : Int
  time : Nat
  deriving DecidableEq, Repr

/-- `Detection_init`: both indicators off, derived values recomputed. -/
def Detection_init (outside : Int → ℚ) (s : State) : State :=
  { s with
    leftDetection := false
    rightDetection := false
    scaleFactor := scales outside s.scalePtr
    realDistance := s.sensorDistance * scales outside s.scalePtr / 1000.0 }

/-- The loop `do { } while ( analogRead(pin) > treshold );` followed by the
read of `millis()`: gives the clock value after the poll that ends the loop,
`none` when the polls run out while the loop is still turning. -/
def waitLoop (treshold : Int) : List Poll → Option Nat
  | [] => none
  | p :: rest => if p.reading > treshold then waitLoop treshold rest else some p.time

/-- `leftToRight`, entered when `millis()` reads `t0`; `polls` are the polls
of the right sensor. -/
def leftToRight (s : State) (t0 : Nat) (polls : List Poll) : Option State :=
  match waitLoop s.tresholdRight polls with
  | none => none
  | some t =>
    some { s with
      leftDetection := true
      leftMillis := t0 % ULONG_MOD
      detectionTime := subU32 t (t0 % ULONG_MOD)
      rightDetection := true }

/-- `rightToLeft`, entered when `millis()` reads `t0`; `polls` are the polls
of the left sensor. -/
def rightToLeft (s : State) (t0 : Nat) (polls : List Poll) : Option State :=
  match waitLoop s.tresholdLeft polls with
  | none => none
  | some t =>
    some { s with
      rightDetection := true
      rightMillis := t0 % ULONG_MOD
      detectionTime := subU32 t (t0 % ULONG_MOD)
      leftDetection := true }

/-! ## _I2C_display.h -/

/-- The `float` division `num / den` for a divisor that is never negative
zero: a finite quotient when `den` is not zero, otherwise an infinity with the
sign of `num`, or NaN for `0 / 0`. -/
def floatDiv (num den : ℚ) : FloatVal :=
  if den ≠ 0 then FloatVal.finite (num / den)
  else if 0 < num then FloatVal.posInf
  else if num < 0 then FloatVal.negInf
  else FloatVal.nan

/-- `LCD_display(display1, row, col, text)`. -/
def LCD_display (s : State) (row col : Nat) (text : LcdText) : State :=
  { s with lcd := s.lcd ++ [⟨row, col, text⟩] }

/-- `showSpeed`: compute the speed and put it on row 0 of the display. -/
def showSpeed (s : State) : State :=
  let s1 := { s with
    realSpeed := floatDiv (s.realDistance * 3.6) ((s.detectionTime : ℚ) / 1000.0) }
  let s2 := LCD_display s1 0 0 (LcdText.label "Speed:          ")
  let s3 := LCD_display s2 0 7 (LcdText.number s1.realSpeed)
  LCD_display s3 0 13 (LcdText.label "Kmh")

/-! ## _EEPROM.h -/

/-- The integer part of a `float`: the fraction is discarded (rounding toward
zero). -/
def truncate (x : ℚ) : Int :=
  if 0 ≤ x then ⌊x⌋ else ⌈x⌉

/-- Conversion of a `float` to the 16-bit `int`.  When the integer part is
representable in `int` it is the result.  Otherwise C++ leaves the conversion
undefined; the target converts through a `long` and keeps the low 16 bits
(40000 becomes -25536), which is what is modelled.  Statements about the
converted value are made only for the representable case. -/
def floatToInt (x : ℚ) : Int :=
  narrowInt (truncate x)

/-- `store_EEPROM_Settings`: copy the four settings into `mySettings` and put
that record at offset 0 of the EEPROM. -/
def store_EEPROM_Settings (s : State) : State :=
  let rec0 : Settings :=
    { senseDistance := floatToInt s.sensorDistance
      selectedScale := s.scalePtr
      leftTreshold := s.tresholdLeft
      rightTreshold := s.tresholdRight }
  { s with mySettings := rec0, eeprom := rec0, eepromWrites := s.eepromWrites + 1 }

/-- `get_EEPROM_Settings`: read the record at offset 0 of the EEPROM into
`mySettings` and copy its four fields into the settings. -/
def get_EEPROM_Settings (s : State) : State :=
  { s with
    mySettings := s.eeprom
    sensorDistance := (s.eeprom.senseDistance : ℚ)
    scalePtr := s.eeprom.selectedScale
    tresholdLeft := s.eeprom.leftTreshold
    tresholdRight := s.eeprom.rightTreshold }

/-- Value of a little-endian two's-complement `int` made of the given bytes. -/
def decodeInt (bytes : List Nat) : Int :=
  let u : Nat := bytes.foldr (fun b acc => b % 256 + 256 * acc) 0
  if 2 * u < 256 ^ bytes.length then (u : Int) else (u : Int) - (256 ^ bytes.length : Nat)

/-- The record read from an erased EEPROM, whose bytes are all `0xFF`: every
field is -1 (shown for 2-byte `int`; 4 bytes of `0xFF` decode to -1 too). -/
def erasedRecord : Settings :=
  { senseDistance := decodeInt [255, 255]
    selectedScale := decodeInt [255, 255]
    leftTreshold := decodeInt [255, 255]
    rightTreshold := decodeInt [255, 255] }

/-! ## _Settings.h -/

/-- What the serial line delivers while the configuration menu runs:
`reads` are the successive results of `Serial.read()` (`-1` when nothing has
arrived); `ints` and `floats` are the successive turns of a prompt loop,
`none` when `Serial.available()` is false and otherwise the value returned by
`Serial.parseInt()`, respectively `Serial.parseFloat()`. -/
structure SerialIn where
  reads : List Int
  ints : List (Option Int)
  floats : List (Option ℚ)
  deriving DecidableEq

/-- The C function `toupper` on character codes. -/
def toupper (c : Int) : Int :=
  if 97 ≤ c ∧ c ≤ 122 then c - 32 else c

/-- The prompt loop of `getLeftTreshold`: on each turn with input, the `long`
returned by `Serial.parseInt()` is assigned to `int treshold`, which narrows
it; the loop ends when `treshold` differs from 0 and returns it, together with
the turns not yet used. -/
def getLeftTreshold : List (Option Int) → Option (Int × List (Option Int))
  | [] => none
  | none :: rest => getLeftTreshold rest
  | some parsed :: rest =>
    let treshold := narrowInt parsed
    if treshold ≠ 0 then some (treshold, rest) else getLeftTreshold rest

/-- The prompt loop of `getRightTreshold`, with the same narrowing of the
parsed `long` into `int treshold`. -/
def getRightTreshold : List (Option Int) → Option (Int × List (Option Int))
  | [] => none
  | none :: rest => getRightTreshold rest
  | some parsed :: rest =>
    let treshold := narrowInt parsed
    if treshold ≠ 0 then some (treshold, rest) else getRightTreshold rest

/-- The prompt loop of `getSensorDistance`. -/
def getSensorDistance : List (Option ℚ) → Option (ℚ × List (Option ℚ))
  | [] => none
  | none :: rest => getSensorDistance rest
  | some dist_float :: rest =>
    if dist_float ≠ 0 then some (dist_float, rest) else getSensorDistance rest

/-- `chooseScale`: read characters until a digit `0`..`7` or an `x` arrives.
A digit selects the scale, recomputes the derived values and shows the scale
on row 1 of the display; `x` leaves everything as it was. -/
def chooseScale (outside : Int → ℚ) (s : State) : List Int → Option (State × List Int)
  | [] => none
  | c :: rest =>
    let choice := toupper c
    if 48 ≤ choice ∧ choice ≤ 55 then
      let s1 := { s with scalePtr := choice - 48 }
      let s2 := { s1 with scaleFactor := scales outside s1.scalePtr }
      let s3 := { s2 with realDistance := s2.sensorDistance * s2.scaleFactor / 1000.0 }
      let s4 := LCD_display s3 1 0 (LcdText.label "Scale:          ")
      some (LCD_display s4 1 7 (LcdText.scaleLabel s4.scalePtr), rest)
    else if choice = 120 ∨ choice = 88 then some (s, rest)
    else chooseScale outside s rest

/-- Case `'1'` of `configMenu`. -/
def menuScale (outside : Int → ℚ) (s : State) (inp : SerialIn) : Option (State × SerialIn) :=
  let save_int := s.scalePtr
  match chooseScale outside s inp.reads with
  | none => none
  | some (s1, rest) =>
    some (if s1.scalePtr ≠ save_int then store_EEPROM_Settings s1 else s1,
      { inp with reads := rest })

/-- Case `'2'` of `configMenu`. -/
def menuDistance (s : State) (inp : SerialIn) : Option (State × SerialIn) :=
  let save_float := s.sensorDistance
  match getSensorDistance inp.floats with
  | none => none
  | some (new_float, rest) =>
    some (if new_float ≠ save_float then
        store_EEPROM_Settings { s with sensorDistance := new_float }
      else s,
      { inp with floats := rest })

/-- Case `'3'` of `configMenu`. -/
def menuLeft (s : State) (inp : SerialIn) : Option (State × SerialIn) :=
  let save_left := s.tresholdLeft
  match getLeftTreshold inp.ints with
  | none => none
  | some (new_left, rest) =>
    some (if new_left ≠ save_left then
        store_EEPROM_Settings { s with tresholdLeft := new_left }
      else s,
      { inp with ints := rest })

/-- Case `'4'` of `configMenu`. -/
def menuRight (s : State) (inp : SerialIn) : Option (State × SerialIn) :=
  let save_right := s.tresholdRight
  match getRightTreshold inp.ints with
  | none => none
  | some (new_right, rest) =>
    some (if new_right ≠ save_right then
        store_EEPROM_Settings { s with tresholdRight := new_right }
      else s,
      { inp with ints := rest })

/-- The `switch (choice)` of `configMenu` for a choice other than `'X'`. -/
def menuCase (outside : Int → ℚ) (choice : Int) (s : State) (inp : SerialIn) :
    Option (State × SerialIn) :=
  if choice = 49 then menuScale outside s inp
  else if choice = 50 then menuDistance s inp
  else if choice = 51 then menuLeft s inp
  else if choice = 52 then menuRight s inp
  else some (s, inp)

/-- `configMenu`: read a character, run its case, and start over until an `x`
arrives.  `fuel` bounds the number of characters the menu itself reads. -/
def configMenu (outside : Int → ℚ) : Nat → State → SerialIn → Option (State × SerialIn)
  | 0, _, _ => none
  | fuel + 1, s, inp =>
    match inp.reads with
    | [] => none
    | c :: rest =>
      let choice := toupper c
      if choice = 88 then some (s, { inp with reads := rest })
      else
        match menuCase outside choice s { inp with reads := rest } with
        | none => none
        | some (s1, inp1) => configMenu outside fuel s1 inp1

/-- The invariant the specification states for the calibration settings. -/
def Valid (s : State) : Prop :=
  0 ≤ s.scalePtr ∧ s.scalePtr ≤ 7 ∧ 0 < s.sensorDistance ∧
    0 ≤ s.tresholdLeft ∧ s.tresholdLeft ≤ 1023 ∧
    0 ≤ s.tresholdRight ∧ s.tresholdRight ≤ 1023

instance (s : State) : Decidable (Valid s) := by
  unfold Valid
  infer_instance

/-- A turn of a prompt loop that its getter passes over: nothing available,
or the value 0. -/
def skipped {α : Type} [Zero α] (turn : Option α) : Prop :=
  turn = none ∨ turn = some 0

instance {α : Type} [Zero α] [DecidableEq α] (turn : Option α) : Decidable (skipped turn) := by
  unfold skipped
  infer_instance

/-- A turn of a threshold prompt that the getter passes over: nothing
available, or a parsed value that is 0 once narrowed to `int`. -/
def skippedInt : Option Int → Prop
  | none => True
  | some parsed => narrowInt parsed = 0

instance (turn : Option Int) : Decidable (skippedInt turn) := by
  cases turn with
  | none => exact isTrue trivial
  | some parsed => exact inferInstanceAs (Decidable (narrowInt parsed = 0))

/-- The character is one of the digits `'0'`..`'7'`. -/
def isScaleDigit (c : Int) : Prop := 48 ≤ c ∧ c ≤ 55

instance (c : Int) : Decidable (isScaleDigit c) := by
  unfold isScaleDigit
  infer_instance

/-- The character is `'x'` or `'X'`. -/
def isLeave (c : Int) : Prop := c = 120 ∨ c = 88

instance (c : Int) : Decidable (isLeave c) := by
  unfold isLeave
  infer_instance

/-- The four calibration settings of a state: sensor distance, scale pointer,
left and right threshold. -/
def calibration (s : State) : ℚ × Int × Int × Int :=
  (s.sensorDistance, s.scalePtr, s.tresholdLeft, s.tresholdRight)

/-- The derived values agree with the settings: `realDistance` and
`scaleFactor` are what `Detection_init` would compute from the current
`sensorDistance` and `scalePtr`. -/
def derivedConsistent (outside : Int → ℚ) (s : State) : Prop :=
  s.realDistance = s.sensorDistance * scales outside s.scalePtr / 1000 ∧
    s.scaleFactor = scales outside s.scalePtr

instance (outside : Int → ℚ) (s : State) : Decidable (derivedConsistent outside s) := by
  unfold derivedConsistent
  infer_instance

end Speedometer

namespace Speedometer

/-! ## Helper lemmas -/

theorem subU32_eq_emod (a b : Nat) :
    ((subU32 a b : Nat) : Int) = ((a : Int) - (b : Int)) % 4294967296 := by
  unfold subU32 ULONG_MOD
  omega

theorem waitLoop_append (treshold : Int) (pre : List Poll) (p : Poll) (rest : List Poll)
    (hpre : ∀ q ∈ pre, q.reading > treshold) (hp : p.reading ≤ treshold) :
    waitLoop treshold (pre ++ p :: rest) = some p.time := by
  induction pre with
  | nil => simp [waitLoop, not_lt.mpr hp]
  | cons q qs ih =>
    have hq : q.reading > treshold := hpre q (by simp)
    have hqs : ∀ r ∈ qs, r.reading > treshold := fun r hr => hpre r (by simp [hr])
    simp [waitLoop, hq, ih hqs]

theorem waitLoop_none (treshold : Int) (polls : List Poll)
    (hall : ∀ q ∈ polls, q.reading > treshold) :
    waitLoop treshold polls = none := by
  induction polls with
  | nil => rfl
  | cons q qs ih =>
    have hq : q.reading > treshold := hall q (by simp)
    have hqs : ∀ r ∈ qs, r.reading > treshold := fun r hr => hall r (by simp [hr])
    simp [waitLoop, hq, ih hqs]

theorem scales_inside (outside : Int → ℚ) (i : Int) (hlo : 0 ≤ i) (hhi : i ≤ 7) :
    scalesTable[i.toNat]? = some (scales outside i) := by
  obtain ⟨n, rfl⟩ := Int.eq_ofNat_of_zero_le hlo
  have hn : n ≤ 7 := by omega
  interval_cases n <;> simp [scales, scalesTable]

theorem narrowInt_of_inIntRange (v : Int) (hv : inIntRange v) : narrowInt v = v := by
  unfold inIntRange at hv
  unfold narrowInt
  omega

theorem narrowInt_inIntRange (v : Int) : inIntRange (narrowInt v) := by
  unfold inIntRange narrowInt
  omega

theorem floatToInt_of_pos (x : ℚ) (hx : 0 < x) (hr : x < 32768) : floatToInt x = ⌊x⌋ := by
  have h0 : (0 : Int) ≤ ⌊x⌋ := Int.floor_nonneg.mpr (le_of_lt hx)
  have h1 : ⌊x⌋ < 32768 := Int.floor_lt.mpr (by exact_mod_cast hr)
  have ht : truncate x = ⌊x⌋ := by simp [truncate, le_of_lt hx]
  rw [floatToInt, ht]
  exact narrowInt_of_inIntRange _ ⟨by omega, by omega⟩

theorem decodeInt_erased : decodeInt [255, 255] = -1 := by
  decide

theorem toupper_digit (c : Int) :
    (48 ≤ toupper c ∧ toupper c ≤ 55) ↔ isScaleDigit c := by
  unfold toupper isScaleDigit
  split_ifs <;> omega

theorem toupper_leave (c : Int) :
    (toupper c = 120 ∨ toupper c = 88) ↔ isLeave c := by
  unfold toupper isLeave
  split_ifs <;> omega

theorem chooseScale_skip (outside : Int → ℚ) (s : State) (c : Int) (rest : List Int)
    (hd : ¬ isScaleDigit c) (hl : ¬ isLeave c) :
    chooseScale outside s (c :: rest) = chooseScale outside s rest := by
  have h1 : ¬ (48 ≤ toupper c ∧ toupper c ≤ 55) := fun h => hd ((toupper_digit c).mp h)
  have h2 : ¬ (toupper c = 120 ∨ toupper c = 88) := fun h => hl ((toupper_leave c).mp h)
  simp only [chooseScale, if_neg h1, if_neg h2]

theorem chooseScale_leave (outside : Int → ℚ) (s : State) (c : Int) (rest : List Int)
    (hl : isLeave c) : chooseScale outside s (c :: rest) = some (s, rest) := by
  have h1 : ¬ (48 ≤ toupper c ∧ toupper c ≤ 55) := by
    intro h
    have hd := (toupper_digit c).mp h
    unfold isScaleDigit at hd
    unfold isLeave at hl
    omega
  have h2 : toupper c = 120 ∨ toupper c = 88 := (toupper_leave c).mpr hl
  simp only [chooseScale, if_neg h1, if_pos h2]

theorem chooseScale_digit (outside : Int → ℚ) (s : State) (c : Int) (rest : List Int)
    (hd : isScaleDigit c) :
    chooseScale outside s (c :: rest) =
      some ({ s with
        scalePtr := c - 48
        scaleFactor := scales outside (c - 48)
        realDistance := s.sensorDistance * scales outside (c - 48) / 1000.0
        lcd := s.lcd ++ [⟨1, 0, LcdText.label "Scale:          "⟩,
          ⟨1, 7, LcdText.scaleLabel (c - 48)⟩] }, rest) := by
  have hc : toupper c = c := by
    unfold toupper
    unfold isScaleDigit at hd
    split_ifs <;> omega
  have h2 : 48 ≤ c ∧ c ≤ 55 := hd
  simp only [chooseScale, hc, if_pos h2, LCD_display, List.append_assoc, List.singleton_append]

theorem chooseScale_append (outside : Int → ℚ) (s : State) (pre rest : List Int)
    (hpre : ∀ k ∈ pre, ¬ isScaleDigit k ∧ ¬ isLeave k) :
    chooseScale outside s (pre ++ rest) = chooseScale outside s rest := by
  induction pre with
  | nil => rfl
  | cons k ks ih =>
    have hk := hpre k (by simp)
    rw [List.cons_append, chooseScale_skip outside s k _ hk.1 hk.2]
    exact ih (fun r hr => hpre r (by simp [hr]))

theorem chooseScale_none (outside : Int → ℚ) (s : State) (reads : List Int)
    (hall : ∀ k ∈ reads, ¬ isScaleDigit k ∧ ¬ isLeave k) :
    chooseScale outside s reads = none := by
  have h := chooseScale_append outside s reads [] hall
  rw [List.append_nil] at h
  rw [h]
  rfl

theorem chooseScale_shape (outside : Int → ℚ) (s : State) (reads : List Int)
    (s1 : State) (rest : List Int) (h : chooseScale outside s reads = some (s1, rest)) :
    ∃ pre c, reads = pre ++ c :: rest ∧ (∀ k ∈ pre, ¬ isScaleDigit k ∧ ¬ isLeave k) ∧
      (isScaleDigit c ∨ isLeave c) := by
  induction reads with
  | nil => simp [chooseScale] at h
  | cons k ks ih =>
    by_cases hd : isScaleDigit k
    · rw [chooseScale_digit outside s k ks hd] at h
      simp only [Option.some.injEq, Prod.mk.injEq] at h
      exact ⟨[], k, by simp [h.2], by simp, Or.inl hd⟩
    · by_cases hl : isLeave k
      · rw [chooseScale_leave outside s k ks hl] at h
        simp only [Option.some.injEq, Prod.mk.injEq] at h
        exact ⟨[], k, by simp [h.2], by simp, Or.inr hl⟩
      · rw [chooseScale_skip outside s k ks hd hl] at h
        obtain ⟨pre, c, hks, hpre, hc⟩ := ih h
        refine ⟨k :: pre, c, by simp [hks], ?_, hc⟩
        intro r hr
        rcases List.mem_cons.mp hr with rfl | hr
        · exact ⟨hd, hl⟩
        · exact hpre r hr

theorem chooseScale_applies_scale (outside : Int → ℚ) (s : State) (reads : List Int)
    (s1 : State) (rest : List Int) (h : chooseScale outside s reads = some (s1, rest)) :
    (s1.scalePtr = s.scalePtr ∨ (0 ≤ s1.scalePtr ∧ s1.scalePtr ≤ 7)) ∧
      s1.sensorDistance = s.sensorDistance ∧
      s1.tresholdLeft = s.tresholdLeft ∧ s1.tresholdRight = s.tresholdRight := by
  obtain ⟨pre, c, hreads, hpre, hc⟩ := chooseScale_shape outside s reads s1 rest h
  rw [hreads, chooseScale_append outside s pre _ hpre] at h
  rcases hc with hc | hc
  · rw [chooseScale_digit outside s c rest hc] at h
    simp only [Option.some.injEq, Prod.mk.injEq, and_true] at h
    subst h
    unfold isScaleDigit at hc
    exact ⟨Or.inr ⟨by show 0 ≤ c - 48; omega, by show c - 48 ≤ 7; omega⟩, rfl, rfl, rfl⟩
  · rw [chooseScale_leave outside s c rest hc] at h
    simp only [Option.some.injEq, Prod.mk.injEq, and_true] at h
    subst h
    exact ⟨Or.inl rfl, rfl, rfl, rfl⟩

theorem getLeftTreshold_skip (t : Option Int) (rest : List (Option Int)) (ht : skippedInt t) :
    getLeftTreshold (t :: rest) = getLeftTreshold rest := by
  cases t with
  | none => simp [getLeftTreshold]
  | some parsed =>
    have h0 : narrowInt parsed = 0 := ht
    simp [getLeftTreshold, h0]

theorem getLeftTreshold_take (v : Int) (rest : List (Option Int)) (hv : narrowInt v ≠ 0) :
    getLeftTreshold (some v :: rest) = some (narrowInt v, rest) := by
  simp [getLeftTreshold, hv]

theorem getLeftTreshold_append (pre : List (Option Int)) (v : Int) (rest : List (Option Int))
    (hpre : ∀ t ∈ pre, skippedInt t) (hv : narrowInt v ≠ 0) :
    getLeftTreshold (pre ++ some v :: rest) = some (narrowInt v, rest) := by
  induction pre with
  | nil => exact getLeftTreshold_take v rest hv
  | cons t ts ih =>
    rw [List.cons_append, getLeftTreshold_skip t _ (hpre t (by simp))]
    exact ih (fun r hr => hpre r (by simp [hr]))

theorem getLeftTreshold_none (polls : List (Option Int)) (hall : ∀ t ∈ polls, skippedInt t) :
    getLeftTreshold polls = none := by
  induction polls with
  | nil => rfl
  | cons t ts ih =>
    rw [getLeftTreshold_skip t _ (hall t (by simp))]
    exact ih (fun r hr => hall r (by simp [hr]))

theorem getLeftTreshold_shape (polls : List (Option Int)) (w : Int) (rest : List (Option Int))
    (h : getLeftTreshold polls = some (w, rest)) :
    w ≠ 0 ∧ ∃ pre v, polls = pre ++ some v :: rest ∧ narrowInt v = w ∧
      ∀ t ∈ pre, skippedInt t := by
  induction polls with
  | nil => simp [getLeftTreshold] at h
  | cons t ts ih =>
    by_cases ht : skippedInt t
    · rw [getLeftTreshold_skip t ts ht] at h
      obtain ⟨hw, pre, v, hts, hv, hpre⟩ := ih h
      refine ⟨hw, t :: pre, v, by simp [hts], hv, ?_⟩
      intro r hr
      rcases List.mem_cons.mp hr with rfl | hr
      · exact ht
      · exact hpre r hr
    · cases t with
      | none => exact absurd trivial ht
      | some parsed =>
        have hp : narrowInt parsed ≠ 0 := ht
        rw [getLeftTreshold_take parsed ts hp] at h
        simp only [Option.some.injEq, Prod.mk.injEq] at h
        obtain ⟨rfl, rfl⟩ := h
        exact ⟨hp, [], parsed, by simp, rfl, by simp⟩

theorem getRightTreshold_eq_left (polls : List (Option Int)) :
    getRightTreshold polls = getLeftTreshold polls := by
  induction polls with
  | nil => rfl
  | cons t ts ih =>
    cases t with
    | none => simpa [getRightTreshold, getLeftTreshold] using ih
    | some parsed =>
      by_cases hw : narrowInt parsed = 0
      · simpa [getRightTreshold, getLeftTreshold, hw] using ih
      · simp [getRightTreshold, getLeftTreshold, hw]

theorem getSensorDistance_skip (t : Option ℚ) (rest : List (Option ℚ)) (ht : skipped t) :
    getSensorDistance (t :: rest) = getSensorDistance rest := by
  rcases ht with rfl | rfl <;> simp [getSensorDistance]

theorem getSensorDistance_take (v : ℚ) (rest : List (Option ℚ)) (hv : v ≠ 0) :
    getSensorDistance (some v :: rest) = some (v, rest) := by
  simp [getSensorDistance, hv]

theorem getSensorDistance_append (pre : List (Option ℚ)) (v : ℚ) (rest : List (Option ℚ))
    (hpre : ∀ t ∈ pre, skipped t) (hv : v ≠ 0) :
    getSensorDistance (pre ++ some v :: rest) = some (v, rest) := by
  induction pre with
  | nil => exact getSensorDistance_take v rest hv
  | cons t ts ih =>
    rw [List.cons_append, getSensorDistance_skip t _ (hpre t (by simp))]
    exact ih (fun r hr => hpre r (by simp [hr]))

theorem getSensorDistance_none (polls : List (Option ℚ)) (hall : ∀ t ∈ polls, skipped t) :
    getSensorDistance polls = none := by
  induction polls with
  | nil => rfl
  | cons t ts ih =>
    rw [getSensorDistance_skip t _ (hall t (by simp))]
    exact ih (fun r hr => hall r (by simp [hr]))

theorem getSensorDistance_shape (polls : List (Option ℚ)) (v : ℚ) (rest : List (Option ℚ))
    (h : getSensorDistance polls = some (v, rest)) :
    v ≠ 0 ∧ ∃ pre, polls = pre ++ some v :: rest ∧ ∀ t ∈ pre, skipped t := by
  induction polls with
  | nil => simp [getSensorDistance] at h
  | cons t ts ih =>
    by_cases ht : skipped t
    · rw [getSensorDistance_skip t ts ht] at h
      obtain ⟨hv, pre, hts, hpre⟩ := ih h
      refine ⟨hv, t :: pre, by simp [hts], ?_⟩
      intro r hr
      rcases List.mem_cons.mp hr with rfl | hr
      · exact ht
      · exact hpre r hr
    · cases t with
      | none => exact absurd (Or.inl rfl) ht
      | some w =>
        have hw : w ≠ 0 := fun h0 => ht (Or.inr (by rw [h0]))
        rw [getSensorDistance_take w ts hw] at h
        simp only [Option.some.injEq, Prod.mk.injEq] at h
        obtain ⟨rfl, rfl⟩ := h
        exact ⟨hw, [], by simp, by simp⟩

theorem menuDistance_of_get (s : State) (inp : SerialIn) (v : ℚ) (rest : List (Option ℚ))
    (h : getSensorDistance inp.floats = some (v, rest)) :
    menuDistance s inp =
      some (if v ≠ s.sensorDistance then store_EEPROM_Settings { s with sensorDistance := v }
        else s, { inp with floats := rest }) := by
  simp only [menuDistance, h]

theorem menuLeft_of_get (s : State) (inp : SerialIn) (v : Int) (rest : List (Option Int))
    (h : getLeftTreshold inp.ints = some (v, rest)) :
    menuLeft s inp =
      some (if v ≠ s.tresholdLeft then store_EEPROM_Settings { s with tresholdLeft := v }
        else s, { inp with ints := rest }) := by
  simp only [menuLeft, h]

theorem menuRight_of_get (s : State) (inp : SerialIn) (v : Int) (rest : List (Option Int))
    (h : getRightTreshold inp.ints = some (v, rest)) :
    menuRight s inp =
      some (if v ≠ s.tresholdRight then store_EEPROM_Settings { s with tresholdRight := v }
        else s, { inp with ints := rest }) := by
  simp only [menuRight, h]

theorem menuScale_of_choose (outside : Int → ℚ) (s : State) (inp : SerialIn) (s1 : State)
    (rest : List Int) (h : chooseScale outside s inp.reads = some (s1, rest)) :
    menuScale outside s inp =
      some (if s1.scalePtr ≠ s.scalePtr then store_EEPROM_Settings s1 else s1,
        { inp with reads := rest }) := by
  simp only [menuScale, h]

theorem menuDistance_inv (s : State) (inp : SerialIn) (s1 : State) (inp1 : SerialIn)
    (h : menuDistance s inp = some (s1, inp1)) :
    ∃ v rest, getSensorDistance inp.floats = some (v, rest) ∧ s1.sensorDistance = v ∧
      s1.scalePtr = s.scalePtr ∧ s1.tresholdLeft = s.tresholdLeft ∧
      s1.tresholdRight = s.tresholdRight := by
  cases hg : getSensorDistance inp.floats with
  | none => simp [menuDistance, hg] at h
  | some r =>
    obtain ⟨v, rest⟩ := r
    rw [menuDistance_of_get s inp v rest hg] at h
    simp only [Option.some.injEq, Prod.mk.injEq] at h
    refine ⟨v, rest, rfl, ?_⟩
    rw [← h.1]
    by_cases heq : v = s.sensorDistance
    · simp [heq]
    · simp [heq, store_EEPROM_Settings]

theorem menuLeft_inv (s : State) (inp : SerialIn) (s1 : State) (inp1 : SerialIn)
    (h : menuLeft s inp = some (s1, inp1)) :
    ∃ v rest, getLeftTreshold inp.ints = some (v, rest) ∧ s1.tresholdLeft = v ∧
      s1.scalePtr = s.scalePtr ∧ s1.sensorDistance = s.sensorDistance ∧
      s1.tresholdRight = s.tresholdRight := by
  cases hg : getLeftTreshold inp.ints with
  | none => simp [menuLeft, hg] at h
  | some r =>
    obtain ⟨v, rest⟩ := r
    rw [menuLeft_of_get s inp v rest hg] at h
    simp only [Option.some.injEq, Prod.mk.injEq] at h
    refine ⟨v, rest, rfl, ?_⟩
    rw [← h.1]
    by_cases heq : v = s.tresholdLeft
    · simp [heq]
    · simp [heq, store_EEPROM_Settings]

theorem menuRight_inv (s : State) (inp : SerialIn) (s1 : State) (inp1 : SerialIn)
    (h : menuRight s inp = some (s1, inp1)) :
    ∃ v rest, getRightTreshold inp.ints = some (v, rest) ∧ s1.tresholdRight = v ∧
      s1.scalePtr = s.scalePtr ∧ s1.sensorDistance = s.sensorDistance ∧
      s1.tresholdLeft = s.tresholdLeft := by
  cases hg : getRightTreshold inp.ints with
  | none => simp [menuRight, hg] at h
  | some r =>
    obtain ⟨v, rest⟩ := r
    rw [menuRight_of_get s inp v rest hg] at h
    simp only [Option.some.injEq, Prod.mk.injEq] at h
    refine ⟨v, rest, rfl, ?_⟩
    rw [← h.1]
    by_cases heq : v = s.tresholdRight
    · simp [heq]
    · simp [heq, store_EEPROM_Settings]

theorem menuCase_distance (outside : Int → ℚ) (s : State) (inp : SerialIn) :
    menuCase outside 50 s inp = menuDistance s inp := by
  simp [menuCase]

theorem menuCase_left (outside : Int → ℚ) (s : State) (inp : SerialIn) :
    menuCase outside 51 s inp = menuLeft s inp := by
  simp [menuCase]

theorem menuCase_right (outside : Int → ℚ) (s : State) (inp : SerialIn) :
    menuCase outside 52 s inp = menuRight s inp := by
  simp [menuCase]

theorem skippedInt_none_zero : ∀ t ∈ [(none : Option Int), some 0], skippedInt t := by
  intro t ht
  simp only [List.mem_cons, List.mem_singleton, List.not_mem_nil, or_false] at ht
  rcases ht with rfl | rfl
  · trivial
  · show narrowInt 0 = 0
    decide

theorem valid_initialState (stored : Settings) : Valid (initialState stored) := by
  simp only [Valid, initialState]
  norm_num

theorem configMenu_leave (outside : Int → ℚ) (fuel : Nat) (s : State) (inp : SerialIn)
    (c : Int) (rest : List Int) (hreads : inp.reads = c :: rest) (hc : isLeave c) :
    configMenu outside (fuel + 1) s inp = some (s, { inp with reads := rest }) := by
  have hx : toupper c = 88 := by
    unfold toupper
    unfold isLeave at hc
    split_ifs <;> omega
  simp only [configMenu, hreads, hx, if_true]

theorem configMenu_step (outside : Int → ℚ) (fuel : Nat) (s : State) (inp : SerialIn)
    (c : Int) (rest : List Int) (hreads : inp.reads = c :: rest) (hc : ¬ isLeave c) :
    configMenu outside (fuel + 1) s inp =
      (menuCase outside (toupper c) s { inp with reads := rest }).bind
        (fun r => configMenu outside fuel r.1 r.2) := by
  have hx : ¬ toupper c = 88 := by
    unfold toupper
    unfold isLeave at hc
    split_ifs <;> omega
  simp only [configMenu, hreads, hx, if_false]
  cases menuCase outside (toupper c) s { inp with reads := rest } with
  | none => rfl
  | some r => rfl

/-! ## C1 -/

/-- C1, as stated, fails: with both thresholds at 200, entry at clock reading
100 and a first poll whose reading 300 strictly exceeds the threshold at clock
reading 350, neither routine returns at that poll (with no further poll there
is no result); they return at the later poll whose reading 100 does not exceed
the threshold, so `detectionTime` is 300 and not 250. -/
theorem leftToRight_exceeding_poll_waits :
    (300 : Int) > (initialState ⟨200, 6, 200, 200⟩).tresholdRight ∧
    (300 : Int) > (initialState ⟨200, 6, 200, 200⟩).tresholdLeft ∧
    leftToRight (initialState ⟨200, 6, 200, 200⟩) 100 [⟨300, 350⟩] = none ∧
    rightToLeft (initialState ⟨200, 6, 200, 200⟩) 100 [⟨300, 350⟩] = none ∧
    (leftToRight (initialState ⟨200, 6, 200, 200⟩) 100 [⟨300, 350⟩, ⟨100, 400⟩]).map
      State.detectionTime = some 300 ∧
    (rightToLeft (initialState ⟨200, 6, 200, 200⟩) 100 [⟨300, 350⟩, ⟨100, 400⟩]).map
      State.detectionTime = some 300 := by
  refine ⟨by decide, by decide, ?_, ?_, ?_, ?_⟩ <;>
    simp [leftToRight, rightToLeft, waitLoop, initialState, subU32, ULONG_MOD]

/-- C1, amended: the waiting loops turn while the reading strictly exceeds the
threshold.  `leftToRight` entered at clock reading `t0` returns at the first
poll `p` of the right sensor whose reading does NOT exceed `tresholdRight`
(and has not returned on the polls `pre` before it, all of which exceed it),
with both indicators on and `detectionTime = p.time - t0` modulo `2 ^ 32`;
symmetrically `rightToLeft` with the left sensor and `tresholdLeft`.  While
every poll exceeds the threshold the routine does not return. -/
theorem leftToRight_rightToLeft_first_low_poll (s : State) (t0 : Nat)
    (pre : List Poll) (p : Poll) (rest : List Poll) :
    ((∀ q ∈ pre, q.reading > s.tresholdRight) → p.reading ≤ s.tresholdRight →
      leftToRight s t0 pre = none ∧
      leftToRight s t0 (pre ++ p :: rest) =
        some { s with
          leftDetection := true
          rightDetection := true
          leftMillis := t0 % ULONG_MOD
          detectionTime := subU32 p.time t0 } ∧
      ((subU32 p.time t0 : Nat) : Int) = ((p.time : Int) - (t0 : Int)) % 4294967296) ∧
    ((∀ q ∈ pre, q.reading > s.tresholdLeft) → p.reading ≤ s.tresholdLeft →
      rightToLeft s t0 pre = none ∧
      rightToLeft s t0 (pre ++ p :: rest) =
        some { s with
          leftDetection := true
          rightDetection := true
          rightMillis := t0 % ULONG_MOD
          detectionTime := subU32 p.time t0 } ∧
      ((subU32 p.time t0 : Nat) : Int) = ((p.time : Int) - (t0 : Int)) % 4294967296) := by
  have hsub : subU32 p.time (t0 % ULONG_MOD) = subU32 p.time t0 := by
    unfold subU32 ULONG_MOD
    omega
  constructor
  · intro hpre hp
    refine ⟨?_, ?_, subU32_eq_emod _ _⟩
    · simp [leftToRight, waitLoop_none _ _ hpre]
    · simp [leftToRight, waitLoop_append _ pre p rest hpre hp, hsub]
  · intro hpre hp
    refine ⟨?_, ?_, subU32_eq_emod _ _⟩
    · simp [rightToLeft, waitLoop_none _ _ hpre]
    · simp [rightToLeft, waitLoop_append _ pre p rest hpre hp, hsub]

/-- Witness for C1: thresholds 200, entry at clock reading 100, one poll
reading 300 (still waiting), then a poll reading 150 at clock reading 350:
both routines return there with `detectionTime = 250`. -/
theorem leftToRight_rightToLeft_first_low_poll_witness :
    (leftToRight (initialState ⟨200, 6, 200, 200⟩) 100 [⟨300, 200⟩, ⟨150, 350⟩, ⟨0, 900⟩]).map
      State.detectionTime = some 250 ∧
    (rightToLeft (initialState ⟨200, 6, 200, 200⟩) 100 [⟨300, 200⟩, ⟨150, 350⟩, ⟨0, 900⟩]).map
      State.detectionTime = some 250 := by
  have h := leftToRight_rightToLeft_first_low_poll (initialState ⟨200, 6, 200, 200⟩) 100
    [⟨300, 200⟩] ⟨150, 350⟩ [⟨0, 900⟩]
  have hpreR : ∀ q ∈ [(⟨300, 200⟩ : Poll)],
      q.reading > (initialState ⟨200, 6, 200, 200⟩).tresholdRight := by
    intro q hq
    simp only [List.mem_singleton] at hq
    subst hq
    decide
  have hpreL : ∀ q ∈ [(⟨300, 200⟩ : Poll)],
      q.reading > (initialState ⟨200, 6, 200, 200⟩).tresholdLeft := by
    intro q hq
    simp only [List.mem_singleton] at hq
    subst hq
    decide
  have h1 := (h.1 hpreR (by decide)).2.1
  have h2 := (h.2 hpreL (by decide)).2.1
  simp only [List.singleton_append] at h1 h2
  rw [h1, h2]
  simp [subU32, ULONG_MOD]

/-! ## C2 -/

/-- C2: over exact rational arithmetic, for every sensor distance, every
`scalePtr` in 0..7 and every `detectionTime > 0`: after `Detection_init`,
`realDistance = sensorDistance * scales[scalePtr] / 1000` (the factor `f` being
the table entry at `scalePtr`), and `showSpeed` then sets
`realSpeed = (realDistance * 3.6) / (detectionTime / 1000)`, a finite value. -/
theorem Detection_init_showSpeed_exact (outside : Int → ℚ) (s : State)
    (hlo : 0 ≤ s.scalePtr) (hhi : s.scalePtr ≤ 7) (ht : 0 < s.detectionTime) :
    ∃ f : ℚ, scalesTable[s.scalePtr.toNat]? = some f ∧
      (Detection_init outside s).scaleFactor = f ∧
      (Detection_init outside s).realDistance = s.sensorDistance * f / 1000 ∧
      (showSpeed (Detection_init outside s)).realSpeed =
        FloatVal.finite
          (((Detection_init outside s).realDistance * 3.6) / ((s.detectionTime : ℚ) / 1000)) := by
  refine ⟨scales outside s.scalePtr, scales_inside outside _ hlo hhi, rfl, ?_, ?_⟩
  · norm_num [Detection_init]
  · have hne : s.detectionTime ≠ 0 := Nat.pos_iff_ne_zero.mp ht
    norm_num [showSpeed, LCD_display, floatDiv, Detection_init, hne]

/-- Witness for C2: sensor distance 200, `scalePtr = 6` (factor 160) and
`detectionTime = 500` give `realDistance = 32` and `realSpeed = 230.4`. -/
theorem Detection_init_showSpeed_exact_witness :
    (Detection_init (fun _ => 0)
      { initialState ⟨200, 6, 200, 200⟩ with detectionTime := 500 }).realDistance = 32 ∧
    (showSpeed (Detection_init (fun _ => 0)
      { initialState ⟨200, 6, 200, 200⟩ with detectionTime := 500 })).realSpeed =
        FloatVal.finite 230.4 := by
  obtain ⟨f, hf, -, hd, hs⟩ := Detection_init_showSpeed_exact (fun _ => 0)
    { initialState ⟨200, 6, 200, 200⟩ with detectionTime := 500 }
    (by decide) (by decide) (by decide)
  have hf160 : f = 160 := by
    simp [initialState, scalesTable] at hf
    rw [← hf]
    norm_num
  rw [hs, hd, hf160]
  constructor
  · norm_num [initialState]
  · norm_num [initialState]

/-! ## C3 -/

/-- C3, as stated, fails: the valid state with sensor distance 200.5 mm
(default scale and thresholds) comes back from the EEPROM with sensor
distance 200. -/
theorem store_get_drops_fraction :
    Valid { initialState ⟨200, 6, 200, 200⟩ with sensorDistance := 200.5 } ∧
    (get_EEPROM_Settings (store_EEPROM_Settings
      { initialState ⟨200, 6, 200, 200⟩ with sensorDistance := 200.5 })).sensorDistance = 200 ∧
    (get_EEPROM_Settings (store_EEPROM_Settings
      { initialState ⟨200, 6, 200, 200⟩ with sensorDistance := 200.5 })).sensorDistance ≠
      ({ initialState ⟨200, 6, 200, 200⟩ with sensorDistance := 200.5 } : State).sensorDistance := by
  have hfloor : ⌊(200.5 : ℚ)⌋ = 200 := by
    rw [Int.floor_eq_iff]
    norm_num
  have hconv : floatToInt (200.5 : ℚ) = 200 := by
    rw [floatToInt_of_pos _ (by norm_num) (by norm_num), hfloor]
  refine ⟨?_, ?_, ?_⟩
  · simp only [Valid, initialState]
    norm_num
  · simp [get_EEPROM_Settings, store_EEPROM_Settings, hconv]
  · simp only [get_EEPROM_Settings, store_EEPROM_Settings, hconv]
    norm_num

/-- C3, amended: for every valid calibration state whose sensor distance is
within the range of the 16-bit `int` record field (below 32768),
`store_EEPROM_Settings` followed by `get_EEPROM_Settings` leaves `scalePtr`,
`tresholdLeft` and `tresholdRight` exactly as they were, and brings
`sensorDistance` back as its integer part (the record field is an `int`); so
`sensorDistance` is exactly preserved if and only if it is a whole number. -/
theorem store_get_roundtrip_integer_part (s : State) (hv : Valid s)
    (hrange : s.sensorDistance < 32768) :
    (get_EEPROM_Settings (store_EEPROM_Settings s)).scalePtr = s.scalePtr ∧
    (get_EEPROM_Settings (store_EEPROM_Settings s)).tresholdLeft = s.tresholdLeft ∧
    (get_EEPROM_Settings (store_EEPROM_Settings s)).tresholdRight = s.tresholdRight ∧
    (get_EEPROM_Settings (store_EEPROM_Settings s)).sensorDistance = (⌊s.sensorDistance⌋ : ℚ) ∧
    ((get_EEPROM_Settings (store_EEPROM_Settings s)).sensorDistance = s.sensorDistance ↔
      ∃ n : Int, s.sensorDistance = (n : ℚ)) := by
  have hpos : 0 < s.sensorDistance := hv.2.2.1
  have hd : (get_EEPROM_Settings (store_EEPROM_Settings s)).sensorDistance =
      (⌊s.sensorDistance⌋ : ℚ) := by
    simp [get_EEPROM_Settings, store_EEPROM_Settings, floatToInt_of_pos _ hpos hrange]
  refine ⟨rfl, rfl, rfl, hd, ?_⟩
  rw [hd]
  constructor
  · intro h
    exact ⟨⌊s.sensorDistance⌋, h.symm⟩
  · rintro ⟨n, hn⟩
    rw [hn, Int.floor_intCast]

/-- Witness for C3: the compiled defaults (distance 200, scale 6, thresholds
200 and 200) survive the round trip unchanged. -/
theorem store_get_roundtrip_integer_part_witness :
    Valid (initialState ⟨0, 0, 0, 0⟩) ∧
    (initialState ⟨0, 0, 0, 0⟩).sensorDistance < 32768 ∧
    (get_EEPROM_Settings (store_EEPROM_Settings (initialState ⟨0, 0, 0, 0⟩))).scalePtr = 6 ∧
    (get_EEPROM_Settings (store_EEPROM_Settings (initialState ⟨0, 0, 0, 0⟩))).tresholdLeft = 200 ∧
    (get_EEPROM_Settings (store_EEPROM_Settings (initialState ⟨0, 0, 0, 0⟩))).tresholdRight = 200 ∧
    (get_EEPROM_Settings (store_EEPROM_Settings (initialState ⟨0, 0, 0, 0⟩))).sensorDistance =
      200 := by
  have hv : Valid (initialState ⟨0, 0, 0, 0⟩) := by
    simp only [Valid, initialState]
    norm_num
  have hr : (initialState ⟨0, 0, 0, 0⟩).sensorDistance < 32768 := by
    norm_num [initialState]
  have h := store_get_roundtrip_integer_part (initialState ⟨0, 0, 0, 0⟩) hv hr
  refine ⟨hv, hr, h.1, h.2.1, h.2.2.1, ?_⟩
  exact (h.2.2.2.2).mpr ⟨200, by simp [initialState]⟩

/-! ## C4 -/

/-- C4, as stated, fails for options 3 and 4: from the compiled defaults (both
thresholds 200, no EEPROM write yet) the entered number 65736 differs from the
current threshold 200, yet the option returns with the state as it was and no
EEPROM write: the prompt narrows the number to the 16-bit `int` 200, which
equals the current value. -/
theorem configMenu_no_store_for_wrapped_entry :
    (65736 : Int) ≠ (initialState ⟨200, 6, 200, 200⟩).tresholdLeft ∧
    (65736 : Int) ≠ (initialState ⟨200, 6, 200, 200⟩).tresholdRight ∧
    (initialState ⟨200, 6, 200, 200⟩).eepromWrites = 0 ∧
    menuCase (fun _ => 0) 51 (initialState ⟨200, 6, 200, 200⟩) ⟨[], [some 65736], []⟩ =
      some (initialState ⟨200, 6, 200, 200⟩, ⟨[], [], []⟩) ∧
    menuCase (fun _ => 0) 52 (initialState ⟨200, 6, 200, 200⟩) ⟨[], [some 65736], []⟩ =
      some (initialState ⟨200, 6, 200, 200⟩, ⟨[], [], []⟩) := by
  have hn : narrowInt 65736 = 200 := by decide
  have hg : getLeftTreshold [some 65736] = some (200, []) := by
    rw [getLeftTreshold_take 65736 [] (by decide), hn]
  refine ⟨by decide, by decide, rfl, ?_, ?_⟩
  · rw [menuCase_left, menuLeft_of_get _ _ 200 [] hg]
    simp [initialState]
  · rw [menuCase_right,
      menuRight_of_get _ _ 200 [] (by rw [getRightTreshold_eq_left]; exact hg)]
    simp [initialState]

/-- C4, amended: for each of the `configMenu` options 1 (scale), 2 (sensor
distance), 3 (left threshold) and 4 (right threshold), for every current state
and every accepted entry, the option returns and the number of EEPROM writes
grows by one exactly when the value handed over by the prompt differs from the
current value of that setting; when it equals the current one the write count,
the EEPROM content and all four settings are unchanged.  The value handed over
is the digit for option 1, the entered number for option 2, and for options 3
and 4 the entered number narrowed to the 16-bit `int` (the entered number
itself when it is within the `int` range).  A write puts the new scale and
thresholds into the record, and the integer part of the sensor distance when
that is representable in `int`.  Leaving the scale menu with `'x'` enters no
value and changes nothing. -/
theorem configMenu_stores_exactly_on_change (outside : Int → ℚ) (s : State) (inp : SerialIn) :
    (∀ pre c rest, inp.reads = pre ++ c :: rest →
      (∀ k ∈ pre, ¬ isScaleDigit k ∧ ¬ isLeave k) → isScaleDigit c →
      ∃ s1, menuCase outside 49 s inp = some (s1, { inp with reads := rest }) ∧
        s1.scalePtr = c - 48 ∧
        s1.eepromWrites = s.eepromWrites + (if c - 48 = s.scalePtr then 0 else 1) ∧
        (c - 48 = s.scalePtr → calibration s1 = calibration s ∧ s1.eeprom = s.eeprom) ∧
        (c - 48 ≠ s.scalePtr → s1.eeprom.selectedScale = c - 48 ∧
          s1.eeprom.leftTreshold = s.tresholdLeft ∧
          s1.eeprom.rightTreshold = s.tresholdRight ∧
          (inIntRange (truncate s.sensorDistance) →
            s1.eeprom.senseDistance = truncate s.sensorDistance))) ∧
    (∀ pre c rest, inp.reads = pre ++ c :: rest →
      (∀ k ∈ pre, ¬ isScaleDigit k ∧ ¬ isLeave k) → isLeave c →
      menuCase outside 49 s inp = some (s, { inp with reads := rest })) ∧
    (∀ pre v rest, inp.floats = pre ++ some v :: rest → (∀ t ∈ pre, skipped t) → v ≠ 0 →
      ∃ s1, menuCase outside 50 s inp = some (s1, { inp with floats := rest }) ∧
        s1.sensorDistance = v ∧
        s1.eepromWrites = s.eepromWrites + (if v = s.sensorDistance then 0 else 1) ∧
        (v = s.sensorDistance → calibration s1 = calibration s ∧ s1.eeprom = s.eeprom) ∧
        (v ≠ s.sensorDistance → s1.eeprom.selectedScale = s.scalePtr ∧
          s1.eeprom.leftTreshold = s.tresholdLeft ∧
          s1.eeprom.rightTreshold = s.tresholdRight ∧
          (inIntRange (truncate v) → s1.eeprom.senseDistance = truncate v))) ∧
    (∀ pre v rest, inp.ints = pre ++ some v :: rest → (∀ t ∈ pre, skippedInt t) →
      narrowInt v ≠ 0 →
      ∃ s1, menuCase outside 51 s inp = some (s1, { inp with ints := rest }) ∧
        s1.tresholdLeft = narrowInt v ∧
        s1.eepromWrites = s.eepromWrites + (if narrowInt v = s.tresholdLeft then 0 else 1) ∧
        (narrowInt v = s.tresholdLeft →
          calibration s1 = calibration s ∧ s1.eeprom = s.eeprom) ∧
        (narrowInt v ≠ s.tresholdLeft → s1.eeprom.selectedScale = s.scalePtr ∧
          s1.eeprom.leftTreshold = narrowInt v ∧
          s1.eeprom.rightTreshold = s.tresholdRight ∧
          (inIntRange (truncate s.sensorDistance) →
            s1.eeprom.senseDistance = truncate s.sensorDistance))) ∧
    (∀ pre v rest, inp.ints = pre ++ some v :: rest → (∀ t ∈ pre, skippedInt t) →
      narrowInt v ≠ 0 →
      ∃ s1, menuCase outside 52 s inp = some (s1, { inp with ints := rest }) ∧
        s1.tresholdRight = narrowInt v ∧
        s1.eepromWrites = s.eepromWrites + (if narrowInt v = s.tresholdRight then 0 else 1) ∧
        (narrowInt v = s.tresholdRight →
          calibration s1 = calibration s ∧ s1.eeprom = s.eeprom) ∧
        (narrowInt v ≠ s.tresholdRight → s1.eeprom.selectedScale = s.scalePtr ∧
          s1.eeprom.leftTreshold = s.tresholdLeft ∧
          s1.eeprom.rightTreshold = narrowInt v ∧
          (inIntRange (truncate s.sensorDistance) →
            s1.eeprom.senseDistance = truncate s.sensorDistance))) ∧
    (∀ v, inIntRange v → narrowInt v = v) := by
  refine ⟨?_, ?_, ?_, ?_, ?_, narrowInt_of_inIntRange⟩
  · intro pre c rest hreads hpre hc
    have hch := (congrArg (chooseScale outside s) hreads).trans
      ((chooseScale_append outside s pre _ hpre).trans (chooseScale_digit outside s c rest hc))
    have hm : menuCase outside 49 s inp = menuScale outside s inp := by simp [menuCase]
    rw [hm, menuScale_of_choose outside s inp _ rest hch]
    by_cases heq : c - 48 = s.scalePtr
    · refine ⟨_, rfl, ?_, ?_, ?_, ?_⟩
      · simp [heq]
      · simp [heq]
      · intro _
        simp [heq, calibration]
      · intro hne
        exact absurd heq hne
    · refine ⟨_, rfl, ?_, ?_, ?_, ?_⟩
      · simp [heq, store_EEPROM_Settings]
      · simp [heq, store_EEPROM_Settings]
      · intro he
        exact absurd he heq
      · intro _
        refine ⟨?_, ?_, ?_, ?_⟩
        · simp [heq, store_EEPROM_Settings]
        · simp [heq, store_EEPROM_Settings]
        · simp [heq, store_EEPROM_Settings]
        · intro hr
          simp [heq, store_EEPROM_Settings, floatToInt, narrowInt_of_inIntRange _ hr]
  · intro pre c rest hreads hpre hc
    have hch : chooseScale outside s inp.reads = some (s, rest) := by
      rw [hreads, chooseScale_append outside s pre _ hpre, chooseScale_leave outside s c rest hc]
    have hm : menuCase outside 49 s inp = menuScale outside s inp := by simp [menuCase]
    rw [hm, menuScale_of_choose outside s inp _ rest hch]
    simp
  · intro pre v rest hfl hpre hv
    have hg : getSensorDistance inp.floats = some (v, rest) := by
      rw [hfl, getSensorDistance_append pre v rest hpre hv]
    rw [menuCase_distance, menuDistance_of_get s inp v rest hg]
    by_cases heq : v = s.sensorDistance
    · refine ⟨_, rfl, ?_, ?_, ?_, ?_⟩
      · simp [heq]
      · simp [heq]
      · intro _
        simp [heq]
      · intro hne
        exact absurd heq hne
    · refine ⟨_, rfl, ?_, ?_, ?_, ?_⟩
      · simp [heq, store_EEPROM_Settings]
      · simp [heq, store_EEPROM_Settings]
      · intro he
        exact absurd he heq
      · intro _
        refine ⟨?_, ?_, ?_, ?_⟩
        · simp [heq, store_EEPROM_Settings]
        · simp [heq, store_EEPROM_Settings]
        · simp [heq, store_EEPROM_Settings]
        · intro hr
          simp [heq, store_EEPROM_Settings, floatToInt, narrowInt_of_inIntRange _ hr]
  · intro pre v rest hin hpre hv
    have hg : getLeftTreshold inp.ints = some (narrowInt v, rest) := by
      rw [hin, getLeftTreshold_append pre v rest hpre hv]
    rw [menuCase_left, menuLeft_of_get s inp (narrowInt v) rest hg]
    by_cases heq : narrowInt v = s.tresholdLeft
    · refine ⟨_, rfl, ?_, ?_, ?_, ?_⟩
      · simp [heq]
      · simp [heq]
      · intro _
        simp [heq]
      · intro hne
        exact absurd heq hne
    · refine ⟨_, rfl, ?_, ?_, ?_, ?_⟩
      · simp [heq, store_EEPROM_Settings]
      · simp [heq, store_EEPROM_Settings]
      · intro he
        exact absurd he heq
      · intro _
        refine ⟨?_, ?_, ?_, ?_⟩
        · simp [heq, store_EEPROM_Settings]
        · simp [heq, store_EEPROM_Settings]
        · simp [heq, store_EEPROM_Settings]
        · intro hr
          simp [heq, store_EEPROM_Settings, floatToInt, narrowInt_of_inIntRange _ hr]
  · intro pre v rest hin hpre hv
    have hg : getRightTreshold inp.ints = some (narrowInt v, rest) := by
      rw [hin, getRightTreshold_eq_left, getLeftTreshold_append pre v rest hpre hv]
    rw [menuCase_right, menuRight_of_get s inp (narrowInt v) rest hg]
    by_cases heq : narrowInt v = s.tresholdRight
    · refine ⟨_, rfl, ?_, ?_, ?_, ?_⟩
      · simp [heq]
      · simp [heq]
      · intro _
        simp [heq]
      · intro hne
        exact absurd heq hne
    · refine ⟨_, rfl, ?_, ?_, ?_, ?_⟩
      · simp [heq, store_EEPROM_Settings]
      · simp [heq, store_EEPROM_Settings]
      · intro he
        exact absurd he heq
      · intro _
        refine ⟨?_, ?_, ?_, ?_⟩
        · simp [heq, store_EEPROM_Settings]
        · simp [heq, store_EEPROM_Settings]
        · simp [heq, store_EEPROM_Settings]
        · intro hr
          simp [heq, store_EEPROM_Settings, floatToInt, narrowInt_of_inIntRange _ hr]

/-- Witness for C4: from the compiled defaults (left threshold 200, no write
yet), option 3 with the turns "nothing, 0, 300" sets the left threshold to 300
with one EEPROM write; with the turns "nothing, 0, 200" it makes no write. -/
theorem configMenu_stores_exactly_on_change_witness :
    (∃ s1, menuCase (fun _ => 0) 51 (initialState ⟨200, 6, 200, 200⟩)
        ⟨[], [none, some 0, some 300], []⟩ = some (s1, ⟨[], [], []⟩) ∧
      s1.tresholdLeft = 300 ∧ s1.eepromWrites = 1) ∧
    (∃ s1, menuCase (fun _ => 0) 51 (initialState ⟨200, 6, 200, 200⟩)
        ⟨[], [none, some 0, some 200], []⟩ = some (s1, ⟨[], [], []⟩) ∧
      s1.eepromWrites = 0 ∧ s1.eeprom = ⟨200, 6, 200, 200⟩) := by
  constructor
  · obtain ⟨s1, h1, h2, h3, -, -⟩ :=
      (configMenu_stores_exactly_on_change (fun _ => 0) (initialState ⟨200, 6, 200, 200⟩)
        ⟨[], [none, some 0, some 300], []⟩).2.2.2.1 [none, some 0] 300 [] rfl
        skippedInt_none_zero (by decide)
    exact ⟨s1, h1, h2, by rw [h3]; rfl⟩
  · obtain ⟨s1, h1, -, h3, h4, -⟩ :=
      (configMenu_stores_exactly_on_change (fun _ => 0) (initialState ⟨200, 6, 200, 200⟩)
        ⟨[], [none, some 0, some 200], []⟩).2.2.2.1 [none, some 0] 200 [] rfl
        skippedInt_none_zero (by decide)
    exact ⟨s1, h1, by rw [h3]; rfl, (h4 rfl).2⟩

/-! ## C5 -/

/-- C5: for every prior state and every sequence of characters fed to
`chooseScale`: a character that is neither a digit `'0'`..`'7'` nor `'x'`/`'X'`
is passed over without effect; when the first recognised key is `'x'`/`'X'`
the routine returns with the state untouched; when it is a digit `d` the
routine returns with `scalePtr = d` in 0..7, `scaleFactor = scales[d]` and
sensor distance and thresholds untouched; without a recognised key it does
not return.  Hence whenever `chooseScale` returns, `scalePtr` is its prior
value or a digit in 0..7 with the matching factor: a selection outside [0,7]
is never applied. -/
theorem chooseScale_applies_only_digits (outside : Int → ℚ) (s : State) :
    (∀ c rest, ¬ isScaleDigit c → ¬ isLeave c →
      chooseScale outside s (c :: rest) = chooseScale outside s rest) ∧
    (∀ pre c rest, (∀ k ∈ pre, ¬ isScaleDigit k ∧ ¬ isLeave k) → isLeave c →
      chooseScale outside s (pre ++ c :: rest) = some (s, rest)) ∧
    (∀ pre c rest, (∀ k ∈ pre, ¬ isScaleDigit k ∧ ¬ isLeave k) → isScaleDigit c →
      ∃ s1, chooseScale outside s (pre ++ c :: rest) = some (s1, rest) ∧
        s1.scalePtr = c - 48 ∧ 0 ≤ s1.scalePtr ∧ s1.scalePtr ≤ 7 ∧
        scalesTable[s1.scalePtr.toNat]? = some s1.scaleFactor ∧
        s1.sensorDistance = s.sensorDistance ∧
        s1.tresholdLeft = s.tresholdLeft ∧ s1.tresholdRight = s.tresholdRight) ∧
    (∀ reads, (∀ k ∈ reads, ¬ isScaleDigit k ∧ ¬ isLeave k) →
      chooseScale outside s reads = none) ∧
    (∀ reads s1 rest, chooseScale outside s reads = some (s1, rest) →
      (s1 = s ∨ (0 ≤ s1.scalePtr ∧ s1.scalePtr ≤ 7 ∧
        scalesTable[s1.scalePtr.toNat]? = some s1.scaleFactor)) ∧
      s1.sensorDistance = s.sensorDistance ∧
      s1.tresholdLeft = s.tresholdLeft ∧ s1.tresholdRight = s.tresholdRight) := by
  have hdigit : ∀ pre c rest, (∀ k ∈ pre, ¬ isScaleDigit k ∧ ¬ isLeave k) → isScaleDigit c →
      ∃ s1, chooseScale outside s (pre ++ c :: rest) = some (s1, rest) ∧
        s1.scalePtr = c - 48 ∧ 0 ≤ s1.scalePtr ∧ s1.scalePtr ≤ 7 ∧
        scalesTable[s1.scalePtr.toNat]? = some s1.scaleFactor ∧
        s1.sensorDistance = s.sensorDistance ∧
        s1.tresholdLeft = s.tresholdLeft ∧ s1.tresholdRight = s.tresholdRight := by
    intro pre c rest hpre hc
    have hlo : 0 ≤ c - 48 := by
      unfold isScaleDigit at hc
      omega
    have hhi : c - 48 ≤ 7 := by
      unfold isScaleDigit at hc
      omega
    rw [chooseScale_append outside s pre _ hpre, chooseScale_digit outside s c rest hc]
    exact ⟨_, rfl, rfl, hlo, hhi, scales_inside outside (c - 48) hlo hhi, rfl, rfl, rfl⟩
  have hleave : ∀ pre c rest, (∀ k ∈ pre, ¬ isScaleDigit k ∧ ¬ isLeave k) → isLeave c →
      chooseScale outside s (pre ++ c :: rest) = some (s, rest) := by
    intro pre c rest hpre hc
    rw [chooseScale_append outside s pre _ hpre, chooseScale_leave outside s c rest hc]
  refine ⟨fun c rest hd hl => chooseScale_skip outside s c rest hd hl, hleave, hdigit,
    fun reads hall => chooseScale_none outside s reads hall, ?_⟩
  intro reads s1 rest h
  obtain ⟨pre, c, hreads, hpre, hc⟩ := chooseScale_shape outside s reads s1 rest h
  rw [hreads] at h
  rcases hc with hc | hc
  · obtain ⟨s2, h2, -, hlo, hhi, hf, hd, hl, hr⟩ := hdigit pre c rest hpre hc
    rw [h2] at h
    simp only [Option.some.injEq, Prod.mk.injEq, and_true] at h
    subst h
    exact ⟨Or.inr ⟨hlo, hhi, hf⟩, hd, hl, hr⟩
  · rw [hleave pre c rest hpre hc] at h
    simp only [Option.some.injEq, Prod.mk.injEq, and_true] at h
    subst h
    exact ⟨Or.inl rfl, rfl, rfl, rfl⟩

/-- Witness for C5: from the compiled defaults, the characters `'9'`, `'a'`,
nothing (`-1`), then `'4'` select scale 4 with factor 87; `'9'` followed by
`'x'` leaves the state as it was. -/
theorem chooseScale_applies_only_digits_witness :
    (∃ s1, chooseScale (fun _ => 0) (initialState ⟨200, 6, 200, 200⟩) [57, 97, -1, 52, 49] =
        some (s1, [49]) ∧ s1.scalePtr = 4 ∧ scalesTable[4]? = some s1.scaleFactor) ∧
    chooseScale (fun _ => 0) (initialState ⟨200, 6, 200, 200⟩) [57, 120, 52] =
      some (initialState ⟨200, 6, 200, 200⟩, [52]) := by
  have h := chooseScale_applies_only_digits (fun _ => 0) (initialState ⟨200, 6, 200, 200⟩)
  have hpre : ∀ k ∈ [(57 : Int), 97, -1], ¬ isScaleDigit k ∧ ¬ isLeave k := by
    intro k hk
    simp only [List.mem_cons, List.mem_singleton, List.not_mem_nil, or_false] at hk
    unfold isScaleDigit isLeave
    omega
  have hpre2 : ∀ k ∈ [(57 : Int)], ¬ isScaleDigit k ∧ ¬ isLeave k := by
    intro k hk
    simp only [List.mem_singleton] at hk
    unfold isScaleDigit isLeave
    omega
  constructor
  · obtain ⟨s1, h1, hp, -, -, hf, -⟩ := h.2.2.1 [57, 97, -1] 52 [49] hpre (by
      unfold isScaleDigit
      omega)
    refine ⟨s1, h1, by rw [hp]; norm_num, ?_⟩
    rw [hp] at hf
    exact hf
  · exact h.2.1 [57] 120 [52] hpre2 (Or.inl rfl)

/-! ## C6 -/

/-- C6, as stated, fails for the two threshold prompts: the parsed value 65536
is not 0, yet `getLeftTreshold` and `getRightTreshold` pass it over (narrowed
to the 16-bit `int` it is 0) and return the later value 7; and the parsed
value 70000 is returned as 4464, not as the value of the sequence. -/
theorem treshold_prompts_narrow_parsed_value :
    (65536 : Int) ≠ 0 ∧
    getLeftTreshold [some 65536, some 7] = some (7, []) ∧
    getRightTreshold [some 65536, some 7] = some (7, []) ∧
    getLeftTreshold [some 70000] = some (4464, []) ∧
    getRightTreshold [some 70000] = some (4464, []) := by
  have h1 : getLeftTreshold [some 65536, some 7] = some (7, []) := by
    rw [getLeftTreshold_skip (some 65536) _ (by decide),
      getLeftTreshold_take 7 [] (by decide)]
    rfl
  have h2 : getLeftTreshold [some 70000] = some (4464, []) := by
    rw [getLeftTreshold_take 70000 [] (by decide)]
    rfl
  refine ⟨by decide, h1, ?_, h2, ?_⟩
  · rw [getRightTreshold_eq_left]
    exact h1
  · rw [getRightTreshold_eq_left]
    exact h2

/-- C6, amended: `getSensorDistance` passes over every turn that delivers
nothing or the value 0, returns the first non-zero value when one arrives and
does not return otherwise.  `getLeftTreshold` and `getRightTreshold` do the
same with the parsed values narrowed to the 16-bit `int`: they pass over every
turn that delivers nothing or a value that narrows to 0, and return the first
other value, narrowed; for parsed values within the `int` range the narrowed
value is the value itself, and it is 0 only for 0.  Whatever a prompt returns
is non-zero.  Consequently, after `configMenu` option 2, 3 or 4 has returned,
the setting it handles is not 0 (and the other three settings are as before),
and a 0 that is entered has no effect at all: the option behaves as if that
turn had not happened. -/
theorem prompts_never_accept_zero (outside : Int → ℚ) (s : State) (inp : SerialIn) :
    ((∀ pre v rest, (∀ t ∈ pre, skipped t) → v ≠ 0 →
        getSensorDistance (pre ++ some v :: rest) = some (v, rest)) ∧
      (∀ polls, (∀ t ∈ polls, skipped t) → getSensorDistance polls = none) ∧
      (∀ polls v rest, getSensorDistance polls = some (v, rest) →
        v ≠ 0 ∧ ∃ pre, polls = pre ++ some v :: rest ∧ ∀ t ∈ pre, skipped t)) ∧
    ((∀ pre v rest, (∀ t ∈ pre, skippedInt t) → narrowInt v ≠ 0 →
        getLeftTreshold (pre ++ some v :: rest) = some (narrowInt v, rest)) ∧
      (∀ polls, (∀ t ∈ polls, skippedInt t) → getLeftTreshold polls = none) ∧
      (∀ polls w rest, getLeftTreshold polls = some (w, rest) →
        w ≠ 0 ∧ ∃ pre v, polls = pre ++ some v :: rest ∧ narrowInt v = w ∧
          ∀ t ∈ pre, skippedInt t)) ∧
    ((∀ pre v rest, (∀ t ∈ pre, skippedInt t) → narrowInt v ≠ 0 →
        getRightTreshold (pre ++ some v :: rest) = some (narrowInt v, rest)) ∧
      (∀ polls, (∀ t ∈ polls, skippedInt t) → getRightTreshold polls = none) ∧
      (∀ polls w rest, getRightTreshold polls = some (w, rest) →
        w ≠ 0 ∧ ∃ pre v, polls = pre ++ some v :: rest ∧ narrowInt v = w ∧
          ∀ t ∈ pre, skippedInt t)) ∧
    (∀ v, inIntRange v → narrowInt v = v ∧ (narrowInt v = 0 ↔ v = 0)) ∧
    ((∀ s1 inp1, menuCase outside 50 s inp = some (s1, inp1) →
        s1.sensorDistance ≠ 0 ∧ s1.scalePtr = s.scalePtr ∧
        s1.tresholdLeft = s.tresholdLeft ∧ s1.tresholdRight = s.tresholdRight) ∧
      (∀ t, skipped t → menuCase outside 50 s { inp with floats := t :: inp.floats } =
        menuCase outside 50 s inp)) ∧
    ((∀ s1 inp1, menuCase outside 51 s inp = some (s1, inp1) →
        s1.tresholdLeft ≠ 0 ∧ s1.scalePtr = s.scalePtr ∧
        s1.sensorDistance = s.sensorDistance ∧ s1.tresholdRight = s.tresholdRight) ∧
      (∀ t, skippedInt t → menuCase outside 51 s { inp with ints := t :: inp.ints } =
        menuCase outside 51 s inp)) ∧
    ((∀ s1 inp1, menuCase outside 52 s inp = some (s1, inp1) →
        s1.tresholdRight ≠ 0 ∧ s1.scalePtr = s.scalePtr ∧
        s1.sensorDistance = s.sensorDistance ∧ s1.tresholdLeft = s.tresholdLeft) ∧
      (∀ t, skippedInt t → menuCase outside 52 s { inp with ints := t :: inp.ints } =
        menuCase outside 52 s inp)) := by
  refine ⟨⟨getSensorDistance_append, getSensorDistance_none, getSensorDistance_shape⟩,
    ⟨getLeftTreshold_append, getLeftTreshold_none, getLeftTreshold_shape⟩,
    ⟨?_, ?_, ?_⟩, ?_, ⟨?_, ?_⟩, ⟨?_, ?_⟩, ⟨?_, ?_⟩⟩
  · intro pre v rest hpre hv
    rw [getRightTreshold_eq_left]
    exact getLeftTreshold_append pre v rest hpre hv
  · intro polls hall
    rw [getRightTreshold_eq_left]
    exact getLeftTreshold_none polls hall
  · intro polls w rest h
    rw [getRightTreshold_eq_left] at h
    exact getLeftTreshold_shape polls w rest h
  · intro v hv
    have h := narrowInt_of_inIntRange v hv
    exact ⟨h, by rw [h]⟩
  · intro s1 inp1 h
    rw [menuCase_distance] at h
    obtain ⟨v, rest, hg, hv, hp, hl, hr⟩ := menuDistance_inv s inp s1 inp1 h
    refine ⟨?_, hp, hl, hr⟩
    rw [hv]
    exact (getSensorDistance_shape _ v rest hg).1
  · intro t ht
    rw [menuCase_distance, menuCase_distance]
    simp only [menuDistance, getSensorDistance_skip t inp.floats ht]
  · intro s1 inp1 h
    rw [menuCase_left] at h
    obtain ⟨v, rest, hg, hv, hp, hd, hr⟩ := menuLeft_inv s inp s1 inp1 h
    refine ⟨?_, hp, hd, hr⟩
    rw [hv]
    exact (getLeftTreshold_shape _ v rest hg).1
  · intro t ht
    rw [menuCase_left, menuCase_left]
    simp only [menuLeft, getLeftTreshold_skip t inp.ints ht]
  · intro s1 inp1 h
    rw [menuCase_right] at h
    obtain ⟨v, rest, hg, hv, hp, hd, hl⟩ := menuRight_inv s inp s1 inp1 h
    refine ⟨?_, hp, hd, hl⟩
    rw [hv]
    rw [getRightTreshold_eq_left] at hg
    exact (getLeftTreshold_shape _ v rest hg).1
  · intro t ht
    rw [menuCase_right, menuCase_right]
    simp only [menuRight, getRightTreshold_eq_left, getLeftTreshold_skip t inp.ints ht]

/-- Witness for C6: the turns "0, nothing, 65536, 300, 5" make
`getLeftTreshold` return 300 and leave the turn 5 unused; from the compiled
defaults, option 3 over these turns ends with a non-zero left threshold. -/
theorem prompts_never_accept_zero_witness :
    getLeftTreshold [some 0, none, some 65536, some 300, some 5] = some (300, [some 5]) ∧
    (∀ s1 inp1, menuCase (fun _ => 0) 51 (initialState ⟨200, 6, 200, 200⟩)
        ⟨[], [some 0, none, some 65536, some 300, some 5], []⟩ = some (s1, inp1) →
      s1.tresholdLeft ≠ 0) := by
  have h := prompts_never_accept_zero (fun _ => 0) (initialState ⟨200, 6, 200, 200⟩)
    ⟨[], [some 0, none, some 65536, some 300, some 5], []⟩
  have hpre : ∀ t ∈ [(some 0 : Option Int), none, some 65536], skippedInt t := by
    intro t ht
    simp only [List.mem_cons, List.mem_singleton, List.not_mem_nil, or_false] at ht
    rcases ht with rfl | rfl | rfl <;> decide
  have hget := h.2.1.1 [some 0, none, some 65536] 300 [some 5] hpre (by decide)
  have hn : narrowInt 300 = 300 := by decide
  rw [hn] at hget
  exact ⟨hget, fun s1 inp1 hm => (h.2.2.2.2.2.1.1 s1 inp1 hm).1⟩

/-! ## C7 -/

/-- C7, as stated, fails: from the compiled defaults with `realDistance`
computed by `Detection_init` (32) and `detectionTime = 0`, `showSpeed` returns
a state, not an error, in which `realSpeed` is infinite and that value has
been written to the display at row 0, column 7; with `realDistance = 0` the
value is NaN. -/
theorem showSpeed_zero_time_unguarded :
    (Detection_init (fun _ => 0) (initialState ⟨200, 6, 200, 200⟩)).detectionTime = 0 ∧
    (showSpeed (Detection_init (fun _ => 0) (initialState ⟨200, 6, 200, 200⟩))).realSpeed =
      FloatVal.posInf ∧
    (⟨0, 7, LcdText.number FloatVal.posInf⟩ : LcdWrite) ∈
      (showSpeed (Detection_init (fun _ => 0) (initialState ⟨200, 6, 200, 200⟩))).lcd ∧
    (showSpeed (initialState ⟨200, 6, 200, 200⟩)).realSpeed = FloatVal.nan := by
  have hspeed : (showSpeed (Detection_init (fun _ => 0)
      (initialState ⟨200, 6, 200, 200⟩))).realSpeed = FloatVal.posInf := by
    norm_num [showSpeed, LCD_display, floatDiv, Detection_init, initialState, scales,
      scalesTable, show Int.toNat 6 = 6 from rfl]
  refine ⟨rfl, hspeed, ?_, ?_⟩
  · have hl : (showSpeed (Detection_init (fun _ => 0)
        (initialState ⟨200, 6, 200, 200⟩))).lcd =
        [⟨0, 0, LcdText.label "Speed:          "⟩,
         ⟨0, 7, LcdText.number (showSpeed (Detection_init (fun _ => 0)
            (initialState ⟨200, 6, 200, 200⟩))).realSpeed⟩,
         ⟨0, 13, LcdText.label "Kmh"⟩] := by
      simp [showSpeed, LCD_display, Detection_init, initialState]
    rw [hl, hspeed]
    simp
  · norm_num [showSpeed, LCD_display, floatDiv, initialState]

/-- C7, amended: `showSpeed` has no guard and no error result.  For every
state with `detectionTime = 0` the division by zero is evaluated: `realSpeed`
becomes plus infinity when `realDistance > 0`, minus infinity when
`realDistance < 0` and NaN when `realDistance = 0` (never a finite value), and
that value is written to the display at row 0, column 7, between the labels
"Speed:" and "Kmh". -/
theorem showSpeed_zero_time_not_finite (s : State) (h0 : s.detectionTime = 0) :
    (0 < s.realDistance → (showSpeed s).realSpeed = FloatVal.posInf) ∧
    (s.realDistance < 0 → (showSpeed s).realSpeed = FloatVal.negInf) ∧
    (s.realDistance = 0 → (showSpeed s).realSpeed = FloatVal.nan) ∧
    (∀ q : ℚ, (showSpeed s).realSpeed ≠ FloatVal.finite q) ∧
    (showSpeed s).lcd = s.lcd ++
      [⟨0, 0, LcdText.label "Speed:          "⟩,
       ⟨0, 7, LcdText.number (showSpeed s).realSpeed⟩,
       ⟨0, 13, LcdText.label "Kmh"⟩] := by
  have hspeed : (showSpeed s).realSpeed =
      if 0 < s.realDistance then FloatVal.posInf
      else if s.realDistance < 0 then FloatVal.negInf else FloatVal.nan := by
    have hden : ¬ ((s.detectionTime : ℚ) / 1000.0 ≠ 0) := by simp [h0]
    have hp : 0 < s.realDistance * 3.6 ↔ 0 < s.realDistance := by
      constructor <;> intro h <;> norm_num at h ⊢ <;> linarith
    have hn : s.realDistance * 3.6 < 0 ↔ s.realDistance < 0 := by
      constructor <;> intro h <;> norm_num at h ⊢ <;> linarith
    show floatDiv _ _ = _
    unfold floatDiv
    rw [if_neg hden]
    simp only [hp, hn]
  refine ⟨?_, ?_, ?_, ?_, ?_⟩
  · intro h
    rw [hspeed, if_pos h]
  · intro h
    rw [hspeed, if_neg (not_lt.mpr (le_of_lt h)), if_pos h]
  · intro h
    rw [hspeed, h]
    simp
  · intro q
    rw [hspeed]
    split_ifs <;> simp
  · simp [showSpeed, LCD_display]

/-- Witness for C7: the compiled defaults after `Detection_init`, where
`detectionTime` is still 0 and `realDistance` is 32. -/
theorem showSpeed_zero_time_not_finite_witness :
    (Detection_init (fun _ => 0) (initialState ⟨200, 6, 200, 200⟩)).detectionTime = 0 ∧
    (showSpeed (Detection_init (fun _ => 0) (initialState ⟨200, 6, 200, 200⟩))).realSpeed ≠
      FloatVal.finite 0 :=
  ⟨rfl, (showSpeed_zero_time_not_finite
    (Detection_init (fun _ => 0) (initialState ⟨200, 6, 200, 200⟩)) rfl).2.2.2.1 0⟩

/-! ## C8 -/

/-- C8, as stated, fails: with an erased EEPROM (every byte `0xFF`, so every
field reads as -1) `get_EEPROM_Settings` run on the compiled initial globals
leaves sensor distance, scale pointer and both thresholds at -1, not at the
compiled defaults. -/
theorem get_EEPROM_Settings_erased :
    (get_EEPROM_Settings (initialState erasedRecord)).sensorDistance = -1 ∧
    (get_EEPROM_Settings (initialState erasedRecord)).scalePtr = -1 ∧
    (get_EEPROM_Settings (initialState erasedRecord)).tresholdLeft = -1 ∧
    (get_EEPROM_Settings (initialState erasedRecord)).tresholdRight = -1 ∧
    (get_EEPROM_Settings (initialState erasedRecord)).scalePtr ≠ 6 := by
  simp [get_EEPROM_Settings, initialState, erasedRecord, decodeInt_erased]

/-- C8, amended: `get_EEPROM_Settings` makes no validity check.  Starting from
the compiled initial globals, for every stored record the settings afterwards
are the four fields of that record, whatever they are; they are the compiled
defaults (200, 6, 200, 200) exactly when the stored record holds these
values. -/
theorem get_EEPROM_Settings_uninterpreted (stored : Settings) :
    (get_EEPROM_Settings (initialState stored)).sensorDistance = (stored.senseDistance : ℚ) ∧
    (get_EEPROM_Settings (initialState stored)).scalePtr = stored.selectedScale ∧
    (get_EEPROM_Settings (initialState stored)).tresholdLeft = stored.leftTreshold ∧
    (get_EEPROM_Settings (initialState stored)).tresholdRight = stored.rightTreshold ∧
    (((get_EEPROM_Settings (initialState stored)).sensorDistance = 200 ∧
      (get_EEPROM_Settings (initialState stored)).scalePtr = 6 ∧
      (get_EEPROM_Settings (initialState stored)).tresholdLeft = 200 ∧
      (get_EEPROM_Settings (initialState stored)).tresholdRight = 200) ↔
      stored = ⟨200, 6, 200, 200⟩) := by
  refine ⟨rfl, rfl, rfl, rfl, ?_⟩
  obtain ⟨d, c, l, r⟩ := stored
  simp only [get_EEPROM_Settings, initialState, Settings.mk.injEq]
  constructor
  · rintro ⟨h1, h2, h3, h4⟩
    refine ⟨?_, h2, h3, h4⟩
    exact_mod_cast h1
  · rintro ⟨h1, h2, h3, h4⟩
    refine ⟨?_, h2, h3, h4⟩
    rw [h1]
    norm_num

/-! ## C9 -/

/-- C9, as stated, fails: from the valid compiled defaults, option 3 accepts
the input 5000 and leaves `tresholdLeft = 5000`, above 1023, and option 2
accepts the input -5 and leaves `sensorDistance = -5`; neither state is
valid. -/
theorem configMenu_accepts_out_of_range :
    Valid (initialState ⟨200, 6, 200, 200⟩) ∧
    (∃ s1, menuCase (fun _ => 0) 51 (initialState ⟨200, 6, 200, 200⟩) ⟨[], [some 5000], []⟩ =
        some (s1, ⟨[], [], []⟩) ∧ s1.tresholdLeft = 5000 ∧ ¬ Valid s1) ∧
    (∃ s1, menuCase (fun _ => 0) 50 (initialState ⟨200, 6, 200, 200⟩) ⟨[], [], [some (-5)]⟩ =
        some (s1, ⟨[], [], []⟩) ∧ s1.sensorDistance = -5 ∧ ¬ Valid s1) := by
  have hL : menuCase (fun _ => 0) 51 (initialState ⟨200, 6, 200, 200⟩) ⟨[], [some 5000], []⟩ =
      some (store_EEPROM_Settings
        { initialState ⟨200, 6, 200, 200⟩ with tresholdLeft := 5000 }, ⟨[], [], []⟩) := by
    rw [menuCase_left, menuLeft_of_get _ _ 5000 [] (getLeftTreshold_take 5000 [] (by decide))]
    simp [initialState]
  have hD : menuCase (fun _ => 0) 50 (initialState ⟨200, 6, 200, 200⟩) ⟨[], [], [some (-5)]⟩ =
      some (store_EEPROM_Settings
        { initialState ⟨200, 6, 200, 200⟩ with sensorDistance := -5 }, ⟨[], [], []⟩) := by
    rw [menuCase_distance,
      menuDistance_of_get _ _ (-5) [] (getSensorDistance_take (-5) [] (by norm_num))]
    norm_num [initialState]
  refine ⟨valid_initialState _, ⟨_, hL, ?_, ?_⟩, ⟨_, hD, ?_, ?_⟩⟩
  · simp [initialState, store_EEPROM_Settings]
  · simp [Valid, initialState, store_EEPROM_Settings]
  · norm_num [initialState, store_EEPROM_Settings]
  · norm_num [Valid, initialState, store_EEPROM_Settings]

/-- C9, amended: the prompts check nothing but "not 0".  For every valid state:
option 1 always ends in a valid state (and returns as soon as a digit
`'0'`..`'7'` or an `'x'` arrives); option 2 with accepted (first non-zero)
value `v` ends with `sensorDistance = v`, in a state that is valid exactly when
`v > 0`; options 3 and 4 accept the first parsed value `v` that is not 0 once
narrowed to the 16-bit `int` and end with that threshold equal to the narrowed
value, in a state that is valid exactly when the narrowed value is in
0..1023 (for `v` within the `int` range the narrowed value is `v`). -/
theorem configMenu_valid_iff_input_in_range (outside : Int → ℚ) (s : State) (inp : SerialIn)
    (hvalid : Valid s) :
    (∀ s1 inp1, menuCase outside 49 s inp = some (s1, inp1) → Valid s1) ∧
    (∀ pre c rest, inp.reads = pre ++ c :: rest →
      (∀ k ∈ pre, ¬ isScaleDigit k ∧ ¬ isLeave k) → isScaleDigit c ∨ isLeave c →
      ∃ s1, menuCase outside 49 s inp = some (s1, { inp with reads := rest }) ∧ Valid s1) ∧
    (∀ pre v rest, inp.floats = pre ++ some v :: rest → (∀ t ∈ pre, skipped t) → v ≠ 0 →
      ∃ s1, menuCase outside 50 s inp = some (s1, { inp with floats := rest }) ∧
        s1.sensorDistance = v ∧ (Valid s1 ↔ 0 < v)) ∧
    (∀ pre v rest, inp.ints = pre ++ some v :: rest → (∀ t ∈ pre, skippedInt t) →
      narrowInt v ≠ 0 →
      ∃ s1, menuCase outside 51 s inp = some (s1, { inp with ints := rest }) ∧
        s1.tresholdLeft = narrowInt v ∧
        (Valid s1 ↔ (0 ≤ narrowInt v ∧ narrowInt v ≤ 1023))) ∧
    (∀ pre v rest, inp.ints = pre ++ some v :: rest → (∀ t ∈ pre, skippedInt t) →
      narrowInt v ≠ 0 →
      ∃ s1, menuCase outside 52 s inp = some (s1, { inp with ints := rest }) ∧
        s1.tresholdRight = narrowInt v ∧
        (Valid s1 ↔ (0 ≤ narrowInt v ∧ narrowInt v ≤ 1023))) ∧
    (∀ v, inIntRange v → narrowInt v = v) := by
  obtain ⟨h1, h2, h3, h4, h5, h6, h7⟩ := hvalid
  have hscale : ∀ s1 inp1, menuCase outside 49 s inp = some (s1, inp1) → Valid s1 := by
    intro s1 inp1 h
    have hm : menuCase outside 49 s inp = menuScale outside s inp := by simp [menuCase]
    rw [hm] at h
    cases hch : chooseScale outside s inp.reads with
    | none => simp [menuScale, hch] at h
    | some r =>
      obtain ⟨s2, rest⟩ := r
      rw [menuScale_of_choose outside s inp s2 rest hch] at h
      simp only [Option.some.injEq, Prod.mk.injEq] at h
      obtain ⟨hs, hd, hl, hr⟩ :=
        (chooseScale_applies_scale outside s inp.reads s2 rest hch)
      have hv2 : Valid s2 := by
        refine ⟨?_, ?_, by rw [hd]; exact h3, by rw [hl]; exact h4, by rw [hl]; exact h5,
          by rw [hr]; exact h6, by rw [hr]; exact h7⟩
        · rcases hs with hs | hs
          · rw [hs]; exact h1
          · exact hs.1
        · rcases hs with hs | hs
          · rw [hs]; exact h2
          · exact hs.2
      rw [← h.1]
      by_cases heq : s2.scalePtr = s.scalePtr
      · simpa [heq] using hv2
      · simpa [heq, Valid, store_EEPROM_Settings] using hv2
  refine ⟨hscale, ?_, ?_, ?_, ?_, narrowInt_of_inIntRange⟩
  · intro pre c rest hreads hpre hc
    have hm : menuCase outside 49 s inp = menuScale outside s inp := by simp [menuCase]
    have hret : ∃ s2, chooseScale outside s inp.reads = some (s2, rest) := by
      rw [hreads, chooseScale_append outside s pre _ hpre]
      rcases hc with hc | hc
      · exact ⟨_, chooseScale_digit outside s c rest hc⟩
      · exact ⟨_, chooseScale_leave outside s c rest hc⟩
    obtain ⟨s2, hch⟩ := hret
    have hres := menuScale_of_choose outside s inp s2 rest hch
    rw [← hm] at hres
    exact ⟨_, hres, hscale _ _ hres⟩
  · intro pre v rest hfl hpre hv
    have hg : getSensorDistance inp.floats = some (v, rest) := by
      rw [hfl, getSensorDistance_append pre v rest hpre hv]
    rw [menuCase_distance, menuDistance_of_get s inp v rest hg]
    by_cases heq : v = s.sensorDistance
    · refine ⟨_, rfl, by simp [heq], ?_⟩
      simp only [heq, ne_eq, not_true_eq_false, if_false]
      exact ⟨fun _ => h3, fun _ => ⟨h1, h2, h3, h4, h5, h6, h7⟩⟩
    · refine ⟨_, rfl, by simp [heq, store_EEPROM_Settings], ?_⟩
      simp only [ne_eq, heq, not_false_eq_true, if_true, Valid, store_EEPROM_Settings]
      exact ⟨fun hv1 => hv1.2.2.1, fun hpos => ⟨h1, h2, hpos, h4, h5, h6, h7⟩⟩
  · intro pre v rest hin hpre hv
    have hg : getLeftTreshold inp.ints = some (narrowInt v, rest) := by
      rw [hin, getLeftTreshold_append pre v rest hpre hv]
    rw [menuCase_left, menuLeft_of_get s inp (narrowInt v) rest hg]
    generalize narrowInt v = w
    by_cases heq : w = s.tresholdLeft
    · refine ⟨_, rfl, by simp [heq], ?_⟩
      simp only [heq, ne_eq, not_true_eq_false, if_false]
      exact ⟨fun _ => ⟨h4, h5⟩, fun _ => ⟨h1, h2, h3, h4, h5, h6, h7⟩⟩
    · refine ⟨_, rfl, by simp [heq, store_EEPROM_Settings], ?_⟩
      simp only [ne_eq, heq, not_false_eq_true, if_true, Valid, store_EEPROM_Settings]
      exact ⟨fun hv1 => ⟨hv1.2.2.2.1, hv1.2.2.2.2.1⟩,
        fun hr => ⟨h1, h2, h3, hr.1, hr.2, h6, h7⟩⟩
  · intro pre v rest hin hpre hv
    have hg : getRightTreshold inp.ints = some (narrowInt v, rest) := by
      rw [hin, getRightTreshold_eq_left, getLeftTreshold_append pre v rest hpre hv]
    rw [menuCase_right, menuRight_of_get s inp (narrowInt v) rest hg]
    generalize narrowInt v = w
    by_cases heq : w = s.tresholdRight
    · refine ⟨_, rfl, by simp [heq], ?_⟩
      simp only [heq, ne_eq, not_true_eq_false, if_false]
      exact ⟨fun _ => ⟨h6, h7⟩, fun _ => ⟨h1, h2, h3, h4, h5, h6, h7⟩⟩
    · refine ⟨_, rfl, by simp [heq, store_EEPROM_Settings], ?_⟩
      simp only [ne_eq, heq, not_false_eq_true, if_true, Valid, store_EEPROM_Settings]
      exact ⟨fun hv1 => ⟨hv1.2.2.2.2.2.1, hv1.2.2.2.2.2.2⟩,
        fun hr => ⟨h1, h2, h3, h4, h5, hr.1, hr.2⟩⟩

/-- Witness for C9: from the valid compiled defaults, option 3 with the input
150 ends in a valid state with `tresholdLeft = 150`. -/
theorem configMenu_valid_iff_input_in_range_witness :
    Valid (initialState ⟨200, 6, 200, 200⟩) ∧
    ∃ s1, menuCase (fun _ => 0) 51 (initialState ⟨200, 6, 200, 200⟩) ⟨[], [some 150], []⟩ =
      some (s1, ⟨[], [], []⟩) ∧ s1.tresholdLeft = 150 ∧ Valid s1 := by
  refine ⟨valid_initialState _, ?_⟩
  obtain ⟨s1, h1, h2, h3⟩ :=
    (configMenu_valid_iff_input_in_range (fun _ => 0) (initialState ⟨200, 6, 200, 200⟩)
      ⟨[], [some 150], []⟩ (valid_initialState _)).2.2.2.1 [] 150 [] rfl
      (by simp) (by decide)
  have hn : narrowInt 150 = 150 := by decide
  rw [hn] at h2 h3
  exact ⟨s1, h1, h2, h3.mpr ⟨by decide, by decide⟩⟩

/-! ## C10 -/

/-- C10, as stated, fails: with an erased EEPROM and a zero word next to the
table, `get_EEPROM_Settings` followed by `Detection_init` indexes the table at
-1 without any failure and uses the scale factor 0, which is none of the eight
table entries. -/
theorem Detection_init_reads_outside_table :
    (get_EEPROM_Settings (initialState erasedRecord)).scalePtr = -1 ∧
    (Detection_init (fun _ => 0) (get_EEPROM_Settings (initialState erasedRecord))).scaleFactor
      = 0 ∧
    (Detection_init (fun _ => 0) (get_EEPROM_Settings (initialState erasedRecord))).scaleFactor
      ∉ scalesTable := by
  have hp : (get_EEPROM_Settings (initialState erasedRecord)).scalePtr = -1 := by
    simp [get_EEPROM_Settings, initialState, erasedRecord, decodeInt_erased]
  have hf : (Detection_init (fun _ => 0)
      (get_EEPROM_Settings (initialState erasedRecord))).scaleFactor = 0 := by
    simp [Detection_init, scales, hp]
  refine ⟨hp, hf, ?_⟩
  rw [hf]
  norm_num [scalesTable]

/-- C10, amended: the lookup `scales[scalePtr]` in `Detection_init` is not
guarded and never fails.  For every state, `Detection_init` uses one of the
eight table entries when `scalePtr` is in [0,7], and whatever lies next to the
table in memory when it is not; for every stored record,
`get_EEPROM_Settings` followed by `Detection_init` does so with the stored
scale index, which it takes over unchecked. -/
theorem Detection_init_factor_unguarded (outside : Int → ℚ) (start : State) :
    (0 ≤ start.scalePtr ∧ start.scalePtr ≤ 7 →
      (Detection_init outside start).scaleFactor ∈ scalesTable) ∧
    (¬ (0 ≤ start.scalePtr ∧ start.scalePtr ≤ 7) →
      (Detection_init outside start).scaleFactor = outside start.scalePtr) ∧
    (0 ≤ start.eeprom.selectedScale ∧ start.eeprom.selectedScale ≤ 7 →
      (Detection_init outside (get_EEPROM_Settings start)).scaleFactor ∈ scalesTable) ∧
    (¬ (0 ≤ start.eeprom.selectedScale ∧ start.eeprom.selectedScale ≤ 7) →
      (Detection_init outside (get_EEPROM_Settings start)).scaleFactor =
        outside start.eeprom.selectedScale) := by
  refine ⟨?_, ?_, ?_, ?_⟩
  · rintro ⟨hlo, hhi⟩
    have hmem := List.getElem?_mem (scales_inside outside start.scalePtr hlo hhi)
    simpa [Detection_init] using hmem
  · intro hout
    simp [Detection_init, scales, hout]
  · rintro ⟨hlo, hhi⟩
    have hmem := List.getElem?_mem (scales_inside outside start.eeprom.selectedScale hlo hhi)
    simpa [Detection_init, get_EEPROM_Settings] using hmem
  · intro hout
    simp [Detection_init, get_EEPROM_Settings, scales, hout]

/-- Witness for C10: a stored record selecting scale 4 (HO) makes
`Detection_init` use the table entry 87. -/
theorem Detection_init_factor_unguarded_witness :
    (Detection_init (fun _ => 0)
      (get_EEPROM_Settings (initialState ⟨200, 4, 200, 200⟩))).scaleFactor ∈ scalesTable :=
  (Detection_init_factor_unguarded (fun _ => 0) (initialState ⟨200, 4, 200, 200⟩)).2.2.1
    ⟨by decide, by decide⟩

/-! ## C11 -/

theorem derivedConsistent_Detection_init (outside : Int → ℚ) (s : State) :
    derivedConsistent outside (Detection_init outside s) := by
  constructor
  · norm_num [Detection_init]
  · rfl

theorem derivedConsistent_store (outside : Int → ℚ) (s : State) :
    derivedConsistent outside (store_EEPROM_Settings s) ↔ derivedConsistent outside s :=
  Iff.rfl

theorem derivedConsistent_chooseScale (outside : Int → ℚ) (s : State) (reads : List Int)
    (s1 : State) (rest : List Int) (hs : derivedConsistent outside s)
    (h : chooseScale outside s reads = some (s1, rest)) : derivedConsistent outside s1 := by
  obtain ⟨pre, c, hreads, hpre, hc⟩ := chooseScale_shape outside s reads s1 rest h
  rw [hreads, chooseScale_append outside s pre _ hpre] at h
  rcases hc with hc | hc
  · rw [chooseScale_digit outside s c rest hc] at h
    simp only [Option.some.injEq, Prod.mk.injEq, and_true] at h
    subst h
    constructor
    · norm_num
    · rfl
  · rw [chooseScale_leave outside s c rest hc] at h
    simp only [Option.some.injEq, Prod.mk.injEq, and_true] at h
    subst h
    exact hs

/-- From a state whose derived values agree with the settings, selecting a
scale (option 1) or setting a threshold (options 3 and 4) ends in such a state
again.  Option 2 does not recompute `realDistance`: it ends in such a
state only when the accepted distance equals the previous one or the scale
factor is 0. -/
theorem derivedConsistent_menuCase (outside : Int → ℚ) (s : State) (inp : SerialIn)
    (hs : derivedConsistent outside s) :
    (∀ s1 inp1, menuCase outside 49 s inp = some (s1, inp1) → derivedConsistent outside s1) ∧
    (∀ s1 inp1, menuCase outside 51 s inp = some (s1, inp1) → derivedConsistent outside s1) ∧
    (∀ s1 inp1, menuCase outside 52 s inp = some (s1, inp1) → derivedConsistent outside s1) ∧
    (∀ s1 inp1, menuCase outside 50 s inp = some (s1, inp1) →
      (derivedConsistent outside s1 ↔
        (s1.sensorDistance = s.sensorDistance ∨ scales outside s.scalePtr = 0))) := by
  refine ⟨?_, ?_, ?_, ?_⟩
  · intro s1 inp1 h
    have hm : menuCase outside 49 s inp = menuScale outside s inp := by simp [menuCase]
    rw [hm] at h
    cases hch : chooseScale outside s inp.reads with
    | none => simp [menuScale, hch] at h
    | some r =>
      obtain ⟨s2, rest⟩ := r
      rw [menuScale_of_choose outside s inp s2 rest hch] at h
      simp only [Option.some.injEq, Prod.mk.injEq] at h
      have h2 := derivedConsistent_chooseScale outside s inp.reads s2 rest hs hch
      rw [← h.1]
      by_cases heq : s2.scalePtr = s.scalePtr
      · simpa [heq] using h2
      · simpa [heq] using (derivedConsistent_store outside s2).mpr h2
  · intro s1 inp1 h
    rw [menuCase_left] at h
    cases hg : getLeftTreshold inp.ints with
    | none => simp [menuLeft, hg] at h
    | some r =>
      obtain ⟨v, rest⟩ := r
      rw [menuLeft_of_get s inp v rest hg] at h
      simp only [Option.some.injEq, Prod.mk.injEq] at h
      rw [← h.1]
      by_cases heq : v = s.tresholdLeft
      · simpa [heq] using hs
      · simp only [ne_eq, heq, not_false_eq_true, if_true]
        exact hs
  · intro s1 inp1 h
    rw [menuCase_right] at h
    cases hg : getRightTreshold inp.ints with
    | none => simp [menuRight, hg] at h
    | some r =>
      obtain ⟨v, rest⟩ := r
      rw [menuRight_of_get s inp v rest hg] at h
      simp only [Option.some.injEq, Prod.mk.injEq] at h
      rw [← h.1]
      by_cases heq : v = s.tresholdRight
      · simpa [heq] using hs
      · simp only [ne_eq, heq, not_false_eq_true, if_true]
        exact hs
  · intro s1 inp1 h
    rw [menuCase_distance] at h
    cases hg : getSensorDistance inp.floats with
    | none => simp [menuDistance, hg] at h
    | some r =>
      obtain ⟨v, rest⟩ := r
      rw [menuDistance_of_get s inp v rest hg] at h
      simp only [Option.some.injEq, Prod.mk.injEq] at h
      rw [← h.1]
      by_cases heq : v = s.sensorDistance
      · simp only [heq, ne_eq, not_true_eq_false, if_false, true_or, iff_true]
        exact hs
      · simp only [ne_eq, heq, not_false_eq_true, if_true]
        have hne : ¬ (store_EEPROM_Settings { s with sensorDistance := v }).sensorDistance =
            s.sensorDistance := heq
        simp only [hne, false_or]
        obtain ⟨hd, hf⟩ := hs
        constructor
        · intro hc
          have h1 : s.realDistance = v * scales outside s.scalePtr / 1000 := hc.1
          rw [hd] at h1
          by_contra hz
          apply heq
          have h2 : s.sensorDistance * scales outside s.scalePtr =
              v * scales outside s.scalePtr := by linarith
          exact (mul_right_cancel₀ hz h2).symm
        · intro hz
          refine ⟨?_, hf⟩
          show s.realDistance = v * scales outside s.scalePtr / 1000
          rw [hd, hz]
          ring

/-- Example: from the compiled defaults after `Detection_init`, option 3 with
the input 300 ends in a state whose derived values agree with the settings. -/
theorem derivedConsistent_menuCase_witness :
    derivedConsistent (fun _ => 0) (Detection_init (fun _ => 0) (initialState ⟨200, 6, 200, 200⟩)) ∧
    ∀ s1 inp1, menuCase (fun _ => 0) 51
        (Detection_init (fun _ => 0) (initialState ⟨200, 6, 200, 200⟩))
        ⟨[], [some 300], []⟩ = some (s1, inp1) → derivedConsistent (fun _ => 0) s1 :=
  ⟨derivedConsistent_Detection_init _ _,
    (derivedConsistent_menuCase (fun _ => 0)
      (Detection_init (fun _ => 0) (initialState ⟨200, 6, 200, 200⟩)) ⟨[], [some 300], []⟩
      (derivedConsistent_Detection_init _ _)).2.1⟩

/-- C11 at a failing input: the code leaves `realDistance` stale after option
2.  From the compiled defaults after `Detection_init` (sensor distance 200,
scale 6, `realDistance = 32`, both equations holding) and with
`detectionTime = 500`, option 2 with the input 400 sets `sensorDistance = 400`
and writes the EEPROM but keeps `realDistance = 32` instead of 64, so the
first equation no longer holds and `showSpeed` run directly afterwards shows
230.4, the speed of the old distance, instead of 460.8. -/
theorem menuDistance_leaves_realDistance_stale :
    derivedConsistent (fun _ => 0) (Detection_init (fun _ => 0)
      { initialState ⟨200, 6, 200, 200⟩ with detectionTime := 500 }) ∧
    ∃ s1, menuCase (fun _ => 0) 50
        (Detection_init (fun _ => 0)
          { initialState ⟨200, 6, 200, 200⟩ with detectionTime := 500 })
        ⟨[], [], [some 400]⟩ = some (s1, ⟨[], [], []⟩) ∧
      s1.sensorDistance = 400 ∧ s1.scalePtr = 6 ∧ s1.scaleFactor = 160 ∧
      s1.realDistance = 32 ∧
      s1.sensorDistance * scales (fun _ => 0) s1.scalePtr / 1000 = 64 ∧
      ¬ derivedConsistent (fun _ => 0) s1 ∧
      (showSpeed s1).realSpeed = FloatVal.finite 230.4 ∧
      (showSpeed (Detection_init (fun _ => 0) s1)).realSpeed = FloatVal.finite 460.8 := by
  have h6 : scales (fun _ => 0) 6 = 160 := by
    norm_num [scales, scalesTable, show Int.toNat 6 = 6 from rfl]
  have hm : menuCase (fun _ => 0) 50
      (Detection_init (fun _ => 0)
        { initialState ⟨200, 6, 200, 200⟩ with detectionTime := 500 })
      ⟨[], [], [some 400]⟩ =
      some (store_EEPROM_Settings
        { Detection_init (fun _ => 0)
            { initialState ⟨200, 6, 200, 200⟩ with detectionTime := 500 } with
          sensorDistance := 400 }, ⟨[], [], []⟩) := by
    rw [menuCase_distance,
      menuDistance_of_get _ _ 400 [] (getSensorDistance_take 400 [] (by norm_num))]
    norm_num [Detection_init, initialState]
  refine ⟨derivedConsistent_Detection_init _ _, _, hm, ?_, ?_, ?_, ?_, ?_, ?_, ?_, ?_⟩
  · rfl
  · rfl
  · norm_num [store_EEPROM_Settings, Detection_init, initialState, h6]
  · norm_num [store_EEPROM_Settings, Detection_init, initialState, h6]
  · norm_num [store_EEPROM_Settings, Detection_init, initialState, h6]
  · norm_num [derivedConsistent, store_EEPROM_Settings, Detection_init, initialState, h6]
  · norm_num [showSpeed, LCD_display, floatDiv, store_EEPROM_Settings, Detection_init,
      initialState, h6]
  · norm_num [showSpeed, LCD_display, floatDiv, store_EEPROM_Settings, Detection_init,
      initialState, h6]

end Speedometer
